import Mathlib

/-!
Verification development for the BehaviorBuilder graph builder and serializer
(src/BehaviorBuilder/BehaviorBuilder.py).

The Python module builds an in-memory object graph (states, generators,
transition tables, event tables) and serializes it into an hkpackfile XML
container.  This file gives a shallow embedding of the builder:

* Every object created by the Python code receives a tag from the
  per-instance counter `_OCnext` (`self.object_counter += 1` followed by
  formatting as the string `"#%04d"`).  The formatting is an injective
  rendering of the counter value, so tags are modeled as the underlying
  natural numbers.  Reference-valued XML fields hold either the string
  "null" or the tag of another object; they are modeled as `Option Nat`
  (`none` standing for the "null" sentinel).
* The XML document (`BehaviorFile.data`) is modeled by the function
  `dataObjects`, which lists every emitted `hkobject` of the data section
  with its tag, class attribute and non-null reference fields.
* Python `assert` failures, `raise TypeError` and unbound-loop-variable
  `NameError`s are modeled with the `PyErr` type.  Operations return the
  builder state they leave behind together with an optional error, since a
  Python exception propagates after any mutations already performed.
* Floats only occur as the `localTime` payload of clip triggers, never
  branched on; they are carried as `Rat`.

The model deliberately reproduces the source's control flow, including the
`for ... else` lookups of `connect_states` / `add_clip_trigger` /
`add_wildcard` (which, when the requested name is missing, leave the loop
variables bound to the last list element) and the class-level (shared)
versus instance-level (owned) attribute split, which is modeled separately
in the two-instance `Proc2` model at the end of the definitions.
-/

namespace BehaviorBuilder

/-- Python exceptions that the builder can raise: a failed `assert`, an
explicit `raise TypeError`, and the `NameError` produced by reading a loop
variable after a `for` loop over an empty list. -/
inductive PyErr
  | assertionError
  | typeError
  | nameError
  deriving DecidableEq

/-- One entry of hkbStateMachineTransitionInfoArray.add_transition: the
fields of the serialized transitions element that carry content
(`triggerInterval`, `fromNestedStateId`, `toNestedStateId`, `priority` are
emitted as constants by the source and carry no cross references). -/
structure TransitionEntry where
  transition : Option Nat
  condition : Option Nat
  eventId : Nat
  toStateId : Nat
  wildcardFlag : Bool
  deriving DecidableEq

/-- Model of hkbStateMachineTransitionInfoArray: its tag, the value of the
numelements attribute (kept in `numTransitions` and written back on every
`add_transition`), and the list of emitted transition elements. -/
structure TransitionArray where
  tag : Nat
  numTransitions : Nat
  transitions : List TransitionEntry
  deriving DecidableEq

/-- hkbStateMachineTransitionInfoArray.add_transition: appends a
transitions element and bumps the numelements attribute. -/
def TransitionArray.add_transition (a : TransitionArray) (eventIdIdx toStateIdIdx : Nat)
    (transitionStr conditionStr : Option Nat) (wildcard : Bool) : TransitionArray :=
  { a with
    transitions := a.transitions ++
      [{ transition := transitionStr, condition := conditionStr, eventId := eventIdIdx,
         toStateId := toStateIdIdx, wildcardFlag := wildcard }],
    numTransitions := a.numTransitions + 1 }

/-- One trigger element of an hkbClipTriggerArray. -/
structure ClipTrigger where
  localTime : Rat
  eventId : Nat
  relativeToEndOfClip : Bool
  deriving DecidableEq

/-- Model of hkbClipTriggerArray: tag, numelements attribute, triggers. -/
structure ClipTriggerArray where
  tag : Nat
  num_elements : Nat
  triggers : List ClipTrigger
  deriving DecidableEq

/-- hkbClipTriggerArray.add_trigger: appends one trigger element and bumps
the numelements attribute. -/
def ClipTriggerArray.add_trigger (c : ClipTriggerArray) (localTime : Rat) (EventID : Nat)
    (relativeToEndOfClip : Bool) : ClipTriggerArray :=
  { c with
    triggers := c.triggers ++
      [{ localTime := localTime, eventId := EventID, relativeToEndOfClip := relativeToEndOfClip }],
    num_elements := c.num_elements + 1 }

/-- Model of hkbStateMachineEventPropertyArray: tag, numelements attribute
and the event ids written into its event objects. -/
structure EventPropArray where
  tag : Nat
  num_elements : Nat
  ids : List Nat
  deriving DecidableEq

/-- The two generator variants: hkbClipGenerator (with its optional
triggers reference) and BGSGamebryoSequenceGenerator. -/
inductive Gen
  | clip (tag : Nat) (name animationName : String) (looping : Bool) (triggers : Option Nat)
  | gamebryo (tag : Nat) (nifAnimName : String)
  deriving DecidableEq

/-- Tag of a generator object. -/
def Gen.tag : Gen → Nat
  | .clip t _ _ _ _ => t
  | .gamebryo t _ => t

/-- Whether the generator is a BGSGamebryoSequenceGenerator (the source
tests this with isinstance). -/
def Gen.isGamebryo : Gen → Bool
  | .clip _ _ _ _ _ => false
  | .gamebryo _ _ => true

/-- hkbClipGenerator.set_trigger: rewrites the triggers field to the tag of
the given hkbClipTriggerArray.  The source only reaches it on clip
generators (gamebryo generators raise TypeError earlier). -/
def Gen.set_trigger : Gen → Nat → Gen
  | .clip t n a l _, trig => .clip t n a l (some trig)
  | g, _ => g

/-- Model of hkbStateMachineStateInfo: tag, the reference fields of the
serialized object, the state name and id, and the lazily created clip
trigger array the source stores on the state object
(hkbStateMachineStateInfo.hkbClipTriggerArray). -/
structure StateInfo where
  tag : Nat
  enterNotifyEvents : Option Nat
  exitNotifyEvents : Option Nat
  transitionsRef : Nat
  generatorRef : Nat
  stateName : String
  stateIdx : Nat
  clipTriggerArr : Option ClipTriggerArray
  deriving DecidableEq

/-- One element of BehaviorFile.list_of_states.  The source stores the
tuple (stateInfo, generator, transitions, name); the event property
arrays created for enter/exit notifications are additionally kept here
because they are emitted into the document. -/
structure StateEntry where
  info : StateInfo
  gen : Gen
  transitions : TransitionArray
  name : String
  enterEPA : Option EventPropArray
  exitEPA : Option EventPropArray
  deriving DecidableEq

/-- Model of hkbBehaviorGraphStringData for one builder instance: its tag,
the internal event_name_list, the nEvents counter (mirrored into the
numelements attribute), and the hkcstring children of the eventNames
element in emission order. -/
structure StringData where
  tag : Nat
  event_name_list : List String
  nEvents : Nat
  eventNames : List String
  deriving DecidableEq

/-- Model of hkbBehaviorGraphData: its tag, the nEvents counter, the flags
of the emitted eventInfos elements, and its two reference fields
(variableInitialValues points at the hkbVariableValueSet, stringData at
the hkbBehaviorGraphStringData). -/
structure GraphData where
  tag : Nat
  nEvents : Nat
  eventInfos : List Nat
  variableInitialValues : Nat
  stringDataRef : Nat
  deriving DecidableEq

/-- The hkbStateMachine object assembled by __finalize: tag, the
numelements attribute of the states element, the state tags written into
the states element text, the wildcardTransitions reference and the
startStateId. -/
structure StateMachineObj where
  tag : Nat
  numElems : Nat
  statesText : List Nat
  wildcardRef : Option Nat
  startStateId : Nat
  deriving DecidableEq

/-- The objects appended by one run of BehaviorFile.__finalize: the state
machine, the hkbBehaviorGraph (tag, rootGenerator and data references) and
the hkRootLevelContainer entry (its variant reference). -/
structure FinalRecord where
  sm : StateMachineObj
  graphTag : Nat
  rootGeneratorRef : Nat
  dataRef : Nat
  containerVariant : Nat
  deriving DecidableEq

/-- State of one BehaviorFile instance in a fresh process (a process
holding exactly one instance, so the class-level lists behave as instance
state; the two-instance sharing semantics is modeled separately by Proc2).
smClassList models the class-level hkbStateMachine.list_of_states, which
persists across the state machine objects created by repeated finalize
calls; finals records the objects appended by each __finalize run. -/
structure BehaviorFile where
  object_counter : Nat
  stringData : StringData
  vvsTag : Nat
  graphData : GraphData
  blendTag : Nat
  wildcardtransitions : Option TransitionArray
  nStates : Nat
  list_of_states : List StateEntry
  smClassList : List Nat
  finals : List FinalRecord
  deriving DecidableEq

/-- BehaviorFile._OCnext: increments the per-instance counter and returns
it (the source formats the value as the reference string "#%04d"; the
underlying number is returned here). -/
def BehaviorFile._OCnext (b : BehaviorFile) : Nat × BehaviorFile :=
  (b.object_counter + 1, { b with object_counter := b.object_counter + 1 })

/-- BehaviorFile.__init__: the counter starts at the class value 51; the
constructor creates the hkbBehaviorGraphStringData (tag 52), the
hkbVariableValueSet (tag 53), the hkbBehaviorGraphData (tag 54, holding
references to tags 53 and 52) and the default hkbBlendingTransitionEffect
(tag 55), in that order.  The root container keeps the class-level
root_index 51. -/
def BehaviorFile.init : BehaviorFile :=
  { object_counter := 55
    stringData := { tag := 52, event_name_list := [], nEvents := 0, eventNames := [] }
    vvsTag := 53
    graphData :=
      { tag := 54, nEvents := 0, eventInfos := [], variableInitialValues := 53,
        stringDataRef := 52 }
    blendTag := 55
    wildcardtransitions := none
    nStates := 0
    list_of_states := []
    smClassList := []
    finals := [] }

/-- First index of an event name in a name list, mirroring the linear scan
of hkbBehaviorGraphStringData.get_eventID (only invoked on names that are
present). -/
def eventIdx : List String → String → Nat
  | [], _ => 0
  | n :: ns, event => if n = event then 0 else eventIdx ns event + 1

/-- hkbBehaviorGraphStringData.getOrCreateEventID: returns the existing
index when the name is registered; otherwise appends the name to the
string data tables (add_event) and a parallel flags entry to
hkbBehaviorGraphData.eventInfos (add_event with flags 0), then returns the
new index via the recursive call. -/
def BehaviorFile.getOrCreateEventID (b : BehaviorFile) (event_name : String) :
    Nat × BehaviorFile :=
  if event_name ∈ b.stringData.event_name_list then
    (eventIdx b.stringData.event_name_list event_name, b)
  else
    let sd := b.stringData
    let sd2 : StringData :=
      { sd with
        event_name_list := sd.event_name_list ++ [event_name],
        eventNames := sd.eventNames ++ [event_name],
        nEvents := sd.nEvents + 1 }
    let gd := b.graphData
    let gd2 : GraphData :=
      { gd with eventInfos := gd.eventInfos ++ [0], nEvents := gd.nEvents + 1 }
    (eventIdx sd2.event_name_list event_name, { b with stringData := sd2, graphData := gd2 })

/-- hkbStateMachineEventPropertyArray.__init__: allocates a tag, sets the
numelements attribute to the number of events, then registers each event
through getOrCreateEventID and stores the resulting ids (a single string
argument is wrapped into a one-element list by the source before the
loop, so the argument here is always a list). -/
def BehaviorFile.mkEventPropertyArray (b : BehaviorFile) (events : List String) :
    EventPropArray × BehaviorFile :=
  let p := b._OCnext
  let r := events.foldl
    (fun (acc : List Nat × BehaviorFile) ev =>
      let q := acc.2.getOrCreateEventID ev
      (acc.1 ++ [q.1], q.2))
    ([], p.2)
  ({ tag := p.1, num_elements := events.length, ids := r.1 }, r.2)

/-- Helper threading the optional enter/exit notify-event arguments of
add_state: "null" stays null, anything else builds a property array. -/
def BehaviorFile.mkEPAopt (b : BehaviorFile) : Option (List String) →
    Option EventPropArray × BehaviorFile
  | none => (none, b)
  | some evs =>
    let q := b.mkEventPropertyArray evs
    (some q.1, q.2)

/-- BehaviorFile.add_state.  Warns and returns unchanged when a non-legacy
state is given the placeholder animation path, or when the name is already
present in list_of_states.  Otherwise creates, in order, the empty
transition array, the generator (hkbClipGenerator or, when gamebryoanim is
set, BGSGamebryoSequenceGenerator), the optional enter/exit event property
arrays and the hkbStateMachineStateInfo, then increments nStates and
appends the tuple to list_of_states. -/
def BehaviorFile.add_state (b : BehaviorFile) (name animation_path : String)
    (looping gamebryoanim : Bool)
    (enterNotifyEvents exitNotifyEvents : Option (List String)) : BehaviorFile :=
  if ¬gamebryoanim ∧ animation_path = "placeholder" then b
  else if b.list_of_states.any (fun e => e.name = name) then b
  else
    let p1 := b._OCnext
    let transitions : TransitionArray := { tag := p1.1, numTransitions := 0, transitions := [] }
    let p2 := p1.2._OCnext
    let gen : Gen :=
      if ¬gamebryoanim then .clip p2.1 name animation_path looping none
      else .gamebryo p2.1 name
    let p3 := p2.2.mkEPAopt enterNotifyEvents
    let p4 := p3.2.mkEPAopt exitNotifyEvents
    let p5 := p4.2._OCnext
    let info : StateInfo :=
      { tag := p5.1, enterNotifyEvents := p3.1.map (·.tag),
        exitNotifyEvents := p4.1.map (·.tag), transitionsRef := p1.1,
        generatorRef := gen.tag, stateName := name, stateIdx := p5.2.nStates,
        clipTriggerArr := none }
    { p5.2 with
      nStates := p5.2.nStates + 1,
      list_of_states := p5.2.list_of_states ++
        [{ info := info, gen := gen, transitions := transitions, name := name,
           enterEPA := p3.1, exitEPA := p4.1 }] }

/-- Result of the "for ... break / else" state lookup loops: the first
entry whose name matches, or (on fall-through without break) the loop
variables left bound to the last element, or nothing when the list is
empty. -/
inductive LookupResult
  | found (e : StateEntry)
  | lastFallthrough (e : StateEntry)
  | empty
  deriving DecidableEq

/-- The for/else lookup over list_of_states used by add_clip_trigger,
connect_states and add_wildcard. -/
def lookupLoop : List StateEntry → String → LookupResult
  | [], _ => .empty
  | [e], n => if e.name = n then .found e else .lastFallthrough e
  | e :: e2 :: es, n => if e.name = n then .found e else lookupLoop (e2 :: es) n

/-- The entry a lookup leaves in the loop variables, if any. -/
def LookupResult.bound : LookupResult → Option StateEntry
  | .found e => some e
  | .lastFallthrough e => some e
  | .empty => none

/-- Rewrites the entry the lookup loop bound: the first entry with the
given name, or the last entry when no name matches (the fall-through
case).  The empty list is left empty. -/
def updateLoop (f : StateEntry → StateEntry) : List StateEntry → String → List StateEntry
  | [], _ => []
  | [e], n => if e.name = n then [f e] else [f e]
  | e :: e2 :: es, n => if e.name = n then f e :: e2 :: es else e :: updateLoop f (e2 :: es) n

/-- BehaviorFile.getOrCreatewildcardtransitions: returns the existing
wildcard hkbStateMachineTransitionInfoArray or creates it. -/
def BehaviorFile.getOrCreatewildcardtransitions (b : BehaviorFile) :
    TransitionArray × BehaviorFile :=
  match b.wildcardtransitions with
  | some w => (w, b)
  | none =>
    let p := b._OCnext
    let w : TransitionArray := { tag := p.1, numTransitions := 0, transitions := [] }
    (w, { p.2 with wildcardtransitions := some w })

/-- BehaviorFile.connect_states.  Asserts the two names differ.  The two
lookup loops only warn on a missing name and do not return, so on a
non-empty state list the call proceeds, registers the event and appends a
transition to the bound (found-or-last) source entry, pointing at the
stateIdx of the bound destination entry, with the shared blend effect tag.
On an empty state list the event is still registered and the subsequent
read of the unbound loop variable raises NameError. -/
def BehaviorFile.connect_states (b : BehaviorFile) (state1 state2 event : String) :
    BehaviorFile × Option PyErr :=
  if state1 = state2 then (b, some .assertionError)
  else
    match (lookupLoop b.list_of_states state2).bound with
    | none =>
      let q := b.getOrCreateEventID event
      (q.2, some .nameError)
    | some st2 =>
      let q := b.getOrCreateEventID event
      ({ q.2 with
          list_of_states := updateLoop
            (fun e =>
              { e with
                transitions := e.transitions.add_transition q.1 st2.info.stateIdx
                  (some q.2.blendTag) none false })
            q.2.list_of_states state1 },
        none)

/-- BehaviorFile.add_wildcard.  Warns and returns when the state is
missing (this loop does return).  Otherwise registers the event, lazily
creates the wildcard transition array and appends a wildcard transition
pointing at the state's stateIdx with the shared blend effect tag. -/
def BehaviorFile.add_wildcard (b : BehaviorFile) (stateStr event : String) :
    BehaviorFile × Option PyErr :=
  match lookupLoop b.list_of_states stateStr with
  | .found e =>
    let q := b.getOrCreateEventID event
    let r := q.2.getOrCreatewildcardtransitions
    ({ r.2 with
        wildcardtransitions := some (r.1.add_transition q.1 e.info.stateIdx
          (some r.2.blendTag) none true) },
      none)
  | _ => (b, none)

/-- BehaviorFile.add_clip_trigger.  The lookup loop only warns on a
missing name; on an empty state list the isinstance check on the unbound
loop variable raises NameError, otherwise the call proceeds on the bound
(found-or-last) entry: a gamebryo generator raises TypeError; else the
state's clip trigger array is created if absent, the event registered,
the trigger appended and the generator's triggers field rebound to the
array's tag. -/
def BehaviorFile.add_clip_trigger (b : BehaviorFile) (state event : String)
    (relativeToEndOfClip : Bool) (localTime : Rat) : BehaviorFile × Option PyErr :=
  match lookupLoop b.list_of_states state with
  | .empty => (b, some .nameError)
  | .found e | .lastFallthrough e =>
    if e.gen.isGamebryo then (b, some .typeError)
    else
      let p := match e.info.clipTriggerArr with
        | some c => (c, b)
        | none =>
          let q := b._OCnext
          (({ tag := q.1, num_elements := 0, triggers := [] } : ClipTriggerArray), q.2)
      let q := p.2.getOrCreateEventID event
      let cta := p.1.add_trigger localTime q.1 relativeToEndOfClip
      ({ q.2 with
          list_of_states := updateLoop
            (fun e2 =>
              { e2 with
                info := { e2.info with clipTriggerArr := some cta },
                gen := e2.gen.set_trigger cta.tag })
            q.2.list_of_states state },
        none)

/-- The loop of __finalize that adds every accumulated state to the fresh
hkbStateMachine: threads the class-level hkbStateMachine.list_of_states,
the per-instance nStates counter (numelements attribute) and the states
element text (rebuilt from the whole class-level list on each add). -/
def smFold : List StateEntry → List Nat × Nat × List Nat → List Nat × Nat × List Nat
  | [], acc => acc
  | e :: es, (cl, n, _) => smFold es (cl ++ [e.info.tag], n + 1, cl ++ [e.info.tag])

/-- BehaviorFile.__finalize: creates the hkbStateMachine (reading the
wildcardtransitions reference at construction), adds every state, creates
the hkbBehaviorGraph referencing the fresh state machine and the
hkbBehaviorGraphData, and appends the hkRootLevelContainer entry whose
variant references the behavior graph.  export calls this and then writes
the document. -/
def BehaviorFile.finalize (b : BehaviorFile) : BehaviorFile :=
  let p1 := b._OCnext
  let r := smFold p1.2.list_of_states (p1.2.smClassList, 0, [])
  let sm : StateMachineObj :=
    { tag := p1.1, numElems := r.2.1, statesText := r.2.2,
      wildcardRef := p1.2.wildcardtransitions.map (·.tag), startStateId := 0 }
  let p2 := p1.2._OCnext
  { p2.2 with
    smClassList := r.1,
    finals := p2.2.finals ++
      [{ sm := sm, graphTag := p2.1, rootGeneratorRef := p1.1,
         dataRef := p2.2.graphData.tag, containerVariant := p2.1 }] }

/-- The builder mutation API surface, as invoked by the editor UI.  The
optional enter/exit notify arguments: none is the "null" default, a plain
string argument is modeled as a one-element list. -/
inductive Op
  | addState (name animation_path : String) (looping gamebryoanim : Bool)
      (enterNotifyEvents exitNotifyEvents : Option (List String))
  | addClipTrigger (state event : String) (relativeToEndOfClip : Bool) (localTime : Rat)
  | connectStates (state1 state2 event : String)
  | addWildcard (stateStr event : String)
  deriving DecidableEq

/-- Applies one builder operation, returning the state left behind and the
exception raised, if any. -/
def BehaviorFile.applyOp (b : BehaviorFile) : Op → BehaviorFile × Option PyErr
  | .addState n p l g en ex => (b.add_state n p l g en ex, none)
  | .addClipTrigger s e r t => b.add_clip_trigger s e r t
  | .connectStates s1 s2 e => b.connect_states s1 s2 e
  | .addWildcard s e => b.add_wildcard s e

/-- Runs a sequence of builder operations from a given state (a caller
that catches any raised exception and proceeds). -/
def BehaviorFile.runFrom (b : BehaviorFile) : List Op → BehaviorFile
  | [] => b
  | op :: ops => (b.applyOp op).1.runFrom ops

/-- Runs a sequence of builder operations on a freshly constructed
BehaviorFile. -/
def runOps (ops : List Op) : BehaviorFile :=
  BehaviorFile.init.runFrom ops

/-! ### The serialized data section

The serializer writes one hkobject element per created object into the
hksection named __data__.  For each object we record its tag (the name
attribute), its class attribute and the values of its non-null
cross-reference fields (fields whose serialized text is the "null"
sentinel are omitted, matching the claim that only non-null references
must resolve).  Objects are grouped by owner; document position plays no
role in the claims (the source orders elements by creation, i.e. by tag).
-/

/-- One emitted hkobject of the data section: tag, class attribute, and
the tags held by its non-null reference fields. -/
structure EmittedObj where
  tag : Nat
  cls : String
  refs : List Nat
  deriving DecidableEq

/-- Renders an optional reference field: "null" contributes nothing. -/
def optRef : Option Nat → List Nat
  | none => []
  | some t => [t]

/-- Non-null reference fields of the transitions elements of a transition
array (each element's transition and condition fields). -/
def TransitionArray.refList (a : TransitionArray) : List Nat :=
  a.transitions.flatMap fun tr => optRef tr.transition ++ optRef tr.condition

/-- The emitted generator object with its triggers reference (clip) or no
references (gamebryo; its pSequence field is a plain string). -/
def Gen.obj : Gen → EmittedObj
  | .clip t _ _ _ tr => { tag := t, cls := "hkbClipGenerator", refs := optRef tr }
  | .gamebryo t _ => { tag := t, cls := "BGSGamebryoSequenceGenerator", refs := [] }

/-- Emission of an optional event property array. -/
def epaObjs : Option EventPropArray → List EmittedObj
  | none => []
  | some p => [{ tag := p.tag, cls := "hkbStateMachineEventPropertyArray", refs := [] }]

/-- Emission of an optional clip trigger array (its event ids are indices
into the event table, not object references). -/
def ctaObjs : Option ClipTriggerArray → List EmittedObj
  | none => []
  | some c => [{ tag := c.tag, cls := "hkbClipTriggerArray", refs := [] }]

/-- The objects created by one add_state call (plus the clip trigger
array later attached to the state, if any): transition array, generator,
enter/exit property arrays and the state info with its reference fields. -/
def StateEntry.objs (e : StateEntry) : List EmittedObj :=
  [{ tag := e.transitions.tag, cls := "hkbStateMachineTransitionInfoArray",
     refs := e.transitions.refList },
   e.gen.obj] ++
  epaObjs e.enterEPA ++ epaObjs e.exitEPA ++
  [{ tag := e.info.tag, cls := "hkbStateMachineStateInfo",
     refs := optRef e.info.enterNotifyEvents ++ optRef e.info.exitNotifyEvents ++
       [e.info.transitionsRef, e.info.generatorRef] }] ++
  ctaObjs e.info.clipTriggerArr

/-- Emission of the optional wildcard transition array. -/
def wcObjs : Option TransitionArray → List EmittedObj
  | none => []
  | some w => [{ tag := w.tag, cls := "hkbStateMachineTransitionInfoArray",
                 refs := w.refList }]

/-- The objects appended by one __finalize run: state machine (with its
wildcardTransitions reference and the states element text), behavior
graph (rootGenerator and data references) and the root level container
(named with the class-level root_index 51, its variant referencing the
behavior graph). -/
def FinalRecord.objs (f : FinalRecord) : List EmittedObj :=
  [{ tag := f.sm.tag, cls := "hkbStateMachine",
     refs := optRef f.sm.wildcardRef ++ f.sm.statesText },
   { tag := f.graphTag, cls := "hkbBehaviorGraph",
     refs := [f.rootGeneratorRef, f.dataRef] },
   { tag := 51, cls := "hkRootLevelContainer", refs := [f.containerVariant] }]

/-- The full data section of the serialized container for one builder
instance. -/
def dataObjects (b : BehaviorFile) : List EmittedObj :=
  [{ tag := b.stringData.tag, cls := "hkbBehaviorGraphStringData", refs := [] },
   { tag := b.vvsTag, cls := "hkbVariableValueSet", refs := [] },
   { tag := b.graphData.tag, cls := "hkbBehaviorGraphData",
     refs := [b.graphData.variableInitialValues, b.graphData.stringDataRef] },
   { tag := b.blendTag, cls := "hkbBlendingTransitionEffect", refs := [] }] ++
  b.list_of_states.flatMap StateEntry.objs ++
  wcObjs b.wildcardtransitions ++
  b.finals.flatMap FinalRecord.objs

/-- Every tag emitted in the data section. -/
def allTags (b : BehaviorFile) : List Nat :=
  (dataObjects b).map (·.tag)

/-- Every non-null cross-reference value emitted in the data section. -/
def allRefs (b : BehaviorFile) : List Nat :=
  (dataObjects b).flatMap (·.refs)

/-- Number of emitted objects carrying a given class attribute. -/
def countClass (cls : String) (l : List EmittedObj) : Nat :=
  (l.filter (fun o => o.cls = cls)).length

/-! ### Two-instance process model

The source keeps several mutable containers as class-level attributes:
BehaviorFile.list_of_states, the BehaviorFile.data XML element (hence the
whole document), and hkbBehaviorGraphStringData.event_name_list are
created once at class definition time and mutated in place, so every
instance in one process observes the same objects.  The numeric counters
(object_counter, nStates, the nEvents counters) and the attributes
assigned in __init__ (the four base objects, blend_effect,
wildcardtransitions once assigned) become instance-owned on first write
because plain assignment rebinds the attribute on the instance.  Proc2
models a process holding two BehaviorFile instances A and B with this
shared/owned split. -/

/-- Instance-owned state of one BehaviorFile in the two-instance model:
the tag counter, nStates, the per-instance string data (its tag, nEvents
counter and the hkcstring children of its own eventNames element), the
per-instance graph data, the base object tags and the instance's
wildcard transition array. -/
structure Inst where
  object_counter : Nat
  nStates : Nat
  sdTag : Nat
  sdNEvents : Nat
  sdEventNames : List String
  gdTag : Nat
  gdNEvents : Nat
  gdEventInfos : List Nat
  vvsTag : Nat
  blendTag : Nat
  wildcardtransitions : Option TransitionArray
  deriving DecidableEq

/-- The class-level (shared) state plus the two instances.  shared_doc
lists the (tag, class) of every hkobject appended to the single shared
data element, in append order; shared_states is the single shared
list_of_states; shared_event_names the single shared event_name_list. -/
structure Proc2 where
  shared_states : List StateEntry
  shared_event_names : List String
  shared_doc : List (Nat × String)
  instA : Inst
  instB : Inst
  deriving DecidableEq

/-- Which of the two instances a call is made on. -/
inductive Who
  | wA
  | wB
  deriving DecidableEq

/-- The called instance. -/
def Proc2.inst (p : Proc2) : Who → Inst
  | .wA => p.instA
  | .wB => p.instB

/-- Replaces the called instance. -/
def Proc2.setInst (p : Proc2) : Who → Inst → Proc2
  | .wA, i => { p with instA := i }
  | .wB, i => { p with instB := i }

/-- One fresh BehaviorFile instance: the counter starts at the class
value 51 and the four base objects are appended to the shared document. -/
def Proc2.mkInstance (doc : List (Nat × String)) : Inst × List (Nat × String) :=
  ({ object_counter := 55, nStates := 0, sdTag := 52, sdNEvents := 0, sdEventNames := [],
     gdTag := 54, gdNEvents := 0, gdEventInfos := [], vvsTag := 53, blendTag := 55,
     wildcardtransitions := none },
   doc ++
    [(52, "hkbBehaviorGraphStringData"), (53, "hkbVariableValueSet"),
     (54, "hkbBehaviorGraphData"), (55, "hkbBlendingTransitionEffect")])

/-- A process that constructs BehaviorFile instance A and then instance
B: the shared containers start empty and each __init__ appends its four
base objects to the shared document. -/
def Proc2.init : Proc2 :=
  let a := Proc2.mkInstance []
  let b := Proc2.mkInstance a.2
  { shared_states := [], shared_event_names := [], shared_doc := b.2,
    instA := a.1, instB := b.1 }

/-- getOrCreateEventID in the two-instance model: the membership test and
index run over the shared event_name_list; a new name is appended to the
shared list, to the calling instance's own eventNames element, and a
flags entry to the calling instance's own eventInfos. -/
def Proc2.getOrCreateEventID (p : Proc2) (w : Who) (event_name : String) : Nat × Proc2 :=
  if event_name ∈ p.shared_event_names then
    (eventIdx p.shared_event_names event_name, p)
  else
    let i := p.inst w
    let i2 := { i with
      sdNEvents := i.sdNEvents + 1, sdEventNames := i.sdEventNames ++ [event_name],
      gdNEvents := i.gdNEvents + 1, gdEventInfos := i.gdEventInfos ++ [0] }
    (eventIdx (p.shared_event_names ++ [event_name]) event_name,
     { p.setInst w i2 with shared_event_names := p.shared_event_names ++ [event_name] })

/-- _OCnext on the called instance. -/
def Proc2.ocNext (p : Proc2) (w : Who) : Nat × Proc2 :=
  let i := p.inst w
  (i.object_counter + 1, p.setInst w { i with object_counter := i.object_counter + 1 })

/-- The event property array construction in the two-instance model. -/
def Proc2.mkEventPropertyArray (p : Proc2) (w : Who) (events : List String) :
    EventPropArray × Proc2 :=
  let q := p.ocNext w
  let q2 := { q.2 with shared_doc := q.2.shared_doc ++
    [(q.1, "hkbStateMachineEventPropertyArray")] }
  let r := events.foldl
    (fun (acc : List Nat × Proc2) ev =>
      let s := acc.2.getOrCreateEventID w ev
      (acc.1 ++ [s.1], s.2))
    ([], q2)
  ({ tag := q.1, num_elements := events.length, ids := r.1 }, r.2)

/-- Optional enter/exit notify argument in the two-instance model. -/
def Proc2.mkEPAopt (p : Proc2) (w : Who) : Option (List String) →
    Option EventPropArray × Proc2
  | none => (none, p)
  | some evs =>
    let q := p.mkEventPropertyArray w evs
    (some q.1, q.2)

/-- add_state in the two-instance model: the duplicate-name check runs
over the shared list_of_states, the created objects go to the shared
document, the new entry (with state_ID drawn from the calling instance's
own nStates counter) is appended to the shared list. -/
def Proc2.add_state (p : Proc2) (w : Who) (name animation_path : String)
    (looping gamebryoanim : Bool)
    (enterNotifyEvents exitNotifyEvents : Option (List String)) : Proc2 :=
  if ¬gamebryoanim ∧ animation_path = "placeholder" then p
  else if p.shared_states.any (fun e => e.name = name) then p
  else
    let p1 := p.ocNext w
    let transitions : TransitionArray := { tag := p1.1, numTransitions := 0, transitions := [] }
    let d1 := { p1.2 with shared_doc := p1.2.shared_doc ++
      [(p1.1, "hkbStateMachineTransitionInfoArray")] }
    let p2 := d1.ocNext w
    let gen : Gen :=
      if ¬gamebryoanim then .clip p2.1 name animation_path looping none
      else .gamebryo p2.1 name
    let d2 := { p2.2 with shared_doc := p2.2.shared_doc ++
      [(p2.1, if ¬gamebryoanim then "hkbClipGenerator" else "BGSGamebryoSequenceGenerator")] }
    let p3 := d2.mkEPAopt w enterNotifyEvents
    let p4 := p3.2.mkEPAopt w exitNotifyEvents
    let p5 := p4.2.ocNext w
    let d5 := { p5.2 with shared_doc := p5.2.shared_doc ++
      [(p5.1, "hkbStateMachineStateInfo")] }
    let info : StateInfo :=
      { tag := p5.1, enterNotifyEvents := p3.1.map (·.tag),
        exitNotifyEvents := p4.1.map (·.tag), transitionsRef := p1.1,
        generatorRef := gen.tag, stateName := name, stateIdx := (d5.inst w).nStates,
        clipTriggerArr := none }
    let i := d5.inst w
    { d5.setInst w { i with nStates := i.nStates + 1 } with
      shared_states := d5.shared_states ++
        [{ info := info, gen := gen, transitions := transitions, name := name,
           enterEPA := p3.1, exitEPA := p4.1 }] }

/-- connect_states in the two-instance model (lookups over the shared
list, blend effect tag of the calling instance). -/
def Proc2.connect_states (p : Proc2) (w : Who) (state1 state2 event : String) :
    Proc2 × Option PyErr :=
  if state1 = state2 then (p, some .assertionError)
  else
    match (lookupLoop p.shared_states state2).bound with
    | none =>
      let q := p.getOrCreateEventID w event
      (q.2, some .nameError)
    | some st2 =>
      let q := p.getOrCreateEventID w event
      ({ q.2 with
          shared_states := updateLoop
            (fun e =>
              { e with
                transitions := e.transitions.add_transition q.1 st2.info.stateIdx
                  (some (q.2.inst w).blendTag) none false })
            q.2.shared_states state1 },
        none)

/-- getOrCreatewildcardtransitions in the two-instance model (the
attribute becomes instance-owned on first assignment; the created array
is appended to the shared document). -/
def Proc2.getOrCreatewildcardtransitions (p : Proc2) (w : Who) : TransitionArray × Proc2 :=
  match (p.inst w).wildcardtransitions with
  | some wc => (wc, p)
  | none =>
    let q := p.ocNext w
    let wc : TransitionArray := { tag := q.1, numTransitions := 0, transitions := [] }
    let i := q.2.inst w
    (wc, { q.2.setInst w { i with wildcardtransitions := some wc } with
            shared_doc := q.2.shared_doc ++ [(q.1, "hkbStateMachineTransitionInfoArray")] })

/-- add_wildcard in the two-instance model. -/
def Proc2.add_wildcard (p : Proc2) (w : Who) (stateStr event : String) :
    Proc2 × Option PyErr :=
  match lookupLoop p.shared_states stateStr with
  | .found e =>
    let q := p.getOrCreateEventID w event
    let r := q.2.getOrCreatewildcardtransitions w
    let i := r.2.inst w
    ({ r.2.setInst w
        { i with wildcardtransitions := some (r.1.add_transition q.1 e.info.stateIdx
            (some i.blendTag) none true) } with shared_doc := (r.2).shared_doc },
      none)
  | _ => (p, none)

/-- add_clip_trigger in the two-instance model. -/
def Proc2.add_clip_trigger (p : Proc2) (w : Who) (state event : String)
    (relativeToEndOfClip : Bool) (localTime : Rat) : Proc2 × Option PyErr :=
  match lookupLoop p.shared_states state with
  | .empty => (p, some .nameError)
  | .found e | .lastFallthrough e =>
    if e.gen.isGamebryo then (p, some .typeError)
    else
      let pr := match e.info.clipTriggerArr with
        | some c => (c, p)
        | none =>
          let q := p.ocNext w
          (({ tag := q.1, num_elements := 0, triggers := [] } : ClipTriggerArray),
           { q.2 with shared_doc := q.2.shared_doc ++ [(q.1, "hkbClipTriggerArray")] })
      let q := pr.2.getOrCreateEventID w event
      let cta := pr.1.add_trigger localTime q.1 relativeToEndOfClip
      ({ q.2 with
          shared_states := updateLoop
            (fun e2 =>
              { e2 with
                info := { e2.info with clipTriggerArr := some cta },
                gen := e2.gen.set_trigger cta.tag })
            q.2.shared_states state },
        none)

/-- Applies one builder operation on the chosen instance of the
two-instance process. -/
def Proc2.applyOn (p : Proc2) (w : Who) : Op → Proc2 × Option PyErr
  | .addState n pa l g en ex => (p.add_state w n pa l g en ex, none)
  | .addClipTrigger s e r t => p.add_clip_trigger w s e r t
  | .connectStates s1 s2 e => p.connect_states w s1 s2 e
  | .addWildcard s e => p.add_wildcard w s e

/-- Non-event fields of the builder: two builder states are related when
they agree on everything except the contents of the event tables (used to
describe getOrCreateEventID and the event registrations inside event
property array construction). -/
structure SameShell (b b' : BehaviorFile) : Prop where
  counter : b'.object_counter = b.object_counter
  list : b'.list_of_states = b.list_of_states
  wc : b'.wildcardtransitions = b.wildcardtransitions
  nst : b'.nStates = b.nStates
  fin : b'.finals = b.finals
  smcl : b'.smClassList = b.smClassList
  blend : b'.blendTag = b.blendTag
  vvs : b'.vvsTag = b.vvsTag
  sdTag : b'.stringData.tag = b.stringData.tag
  gdTag : b'.graphData.tag = b.graphData.tag
  gdVvs : b'.graphData.variableInitialValues = b.graphData.variableInitialValues
  gdSd : b'.graphData.stringDataRef = b.graphData.stringDataRef

/-- The entry update applied by connect_states to the bound source
entry: append one local transition. -/
def connectUpd (i j blend : Nat) : StateEntry → StateEntry := fun e =>
  { e with
    transitions := e.transitions.add_transition i j (some blend) none false }

/-- The entry update applied by add_clip_trigger to the bound entry:
store the (created or extended) clip trigger array and rebind the
generator to its tag. -/
def ctaUpd (cta : ClipTriggerArray) : StateEntry → StateEntry := fun e2 =>
  { e2 with
    info := { e2.info with clipTriggerArr := some cta },
    gen := e2.gen.set_trigger cta.tag }

/-- Builder components no mutation operation ever touches (the base
object tags and references, the blend effect, finalize bookkeeping). -/
structure SameCore (b b' : BehaviorFile) : Prop where
  fin : b'.finals = b.finals
  smcl : b'.smClassList = b.smClassList
  blend : b'.blendTag = b.blendTag
  vvs : b'.vvsTag = b.vvsTag
  sdTag : b'.stringData.tag = b.stringData.tag
  gdTag : b'.graphData.tag = b.graphData.tag
  gdVvs : b'.graphData.variableInitialValues = b.graphData.variableInitialValues
  gdSd : b'.graphData.stringDataRef = b.graphData.stringDataRef

/-- First-match count of a named state's transition table numelements
(0 when no state carries the name), mirroring the first-match semantics
of the lookup loops. -/
def transCount : List StateEntry → String → Nat
  | [], _ => 0
  | e :: es, n => if e.name = n then e.transitions.numTransitions else transCount es n

/-- Sum of the numelements attributes of all per-state transition
tables. -/
def sumTrans (l : List StateEntry) : Nat :=
  (l.map (·.transitions.numTransitions)).sum

/-- The numelements attribute of the wildcard transition array (0 when it
was never created). -/
def wcCount (b : BehaviorFile) : Nat :=
  match b.wildcardtransitions with
  | some w => w.numTransitions
  | none => 0

/-- Number of addState operations in a sequence. -/
def opsAddState : List Op → Nat
  | [] => 0
  | .addState _ _ _ _ _ _ :: ops => opsAddState ops + 1
  | _ :: ops => opsAddState ops

/-- Number of connectStates operations in a sequence. -/
def opsConnect : List Op → Nat
  | [] => 0
  | .connectStates _ _ _ :: ops => opsConnect ops + 1
  | _ :: ops => opsConnect ops

/-- Number of addWildcard operations in a sequence. -/
def opsWildcard : List Op → Nat
  | [] => 0
  | .addWildcard _ _ :: ops => opsWildcard ops + 1
  | _ :: ops => opsWildcard ops

/-- Number of connectStates operations with a given source state name. -/
def opsConnectFrom (n : String) : List Op → Nat
  | [] => 0
  | .connectStates s1 _ _ :: ops => (if s1 = n then 1 else 0) + opsConnectFrom n ops
  | _ :: ops => opsConnectFrom n ops

/-- Whether the lookup loop actually finds a state of this name. -/
def isFoundIn (l : List StateEntry) (s : String) : Bool :=
  match lookupLoop l s with
  | .found _ => true
  | _ => false

/-- An operation is valid in a builder state when it takes its success
path: addState actually registers (real animation path or legacy
generator, fresh name), addClipTrigger targets an existing non-legacy
state, connectStates joins two existing distinct states, addWildcard
targets an existing state. -/
def validOp (b : BehaviorFile) : Op → Bool
  | .addState name pa _ g _ _ =>
    (g || !(pa == "placeholder")) && !(b.list_of_states.any (fun e => e.name = name))
  | .addClipTrigger s _ _ _ =>
    match lookupLoop b.list_of_states s with
    | .found e => !e.gen.isGamebryo
    | _ => false
  | .connectStates s1 s2 _ =>
    (!(s1 == s2)) && isFoundIn b.list_of_states s1 && isFoundIn b.list_of_states s2
  | .addWildcard s _ => isFoundIn b.list_of_states s

/-- Every operation of the sequence is valid in the state it runs in. -/
def validSeq : BehaviorFile → List Op → Bool
  | _, [] => true
  | b, op :: ops => validOp b op && validSeq (b.applyOp op).1 ops

/-- The round-trip scenario of the user guide: two clip states, a
transition each way and one wildcard transition. -/
def c6Scenario : List Op :=
  [Op.addState "Idle" "anims/idle.hkx" true false none none,
   Op.addState "Walk" "anims/walk.hkx" true false none none,
   Op.connectStates "Idle" "Walk" "StartWalk",
   Op.connectStates "Walk" "Idle" "StopWalk",
   Op.addWildcard "Idle" "ForceIdle"]

/-- The entry appended to list_of_states by the registering branch of
add_state (used by the proofs to name that entry; it repeats the
construction inside add_state verbatim). -/
def addStateEntry (b : BehaviorFile) (name pa : String) (lo g : Bool)
    (en ex : Option (List String)) : StateEntry :=
  let p1 := b._OCnext
  let transitions : TransitionArray := { tag := p1.1, numTransitions := 0, transitions := [] }
  let p2 := p1.2._OCnext
  let gen : Gen :=
    if ¬g then .clip p2.1 name pa lo none
    else .gamebryo p2.1 name
  let p3 := p2.2.mkEPAopt en
  let p4 := p3.2.mkEPAopt ex
  let p5 := p4.2._OCnext
  let info : StateInfo :=
    { tag := p5.1, enterNotifyEvents := p3.1.map (·.tag),
      exitNotifyEvents := p4.1.map (·.tag), transitionsRef := p1.1,
      generatorRef := gen.tag, stateName := name, stateIdx := p5.2.nStates,
      clipTriggerArr := none }
  { info := info, gen := gen, transitions := transitions, name := name,
    enterEPA := p3.1, exitEPA := p4.1 }

/-- Number of event property arrays an optional notify argument
creates. -/
def epaCount : Option (List String) → Nat
  | none => 0
  | some _ => 1

/-- Tags of the objects a state entry contributes to the data section. -/
def entryTags (e : StateEntry) : List Nat :=
  (StateEntry.objs e).map (·.tag)

/-- Non-null references of the objects a state entry contributes. -/
def entryRefs (e : StateEntry) : List Nat :=
  (StateEntry.objs e).flatMap (·.refs)

/-- The allocation invariant of one builder instance before export: all
emitted tags are pairwise distinct, lie between the first base tag (52)
and the current counter, every emitted non-null reference resolves to an
emitted tag, the counter never falls below its post-construction value,
and no finalize record exists yet. -/
structure Inv (b : BehaviorFile) : Prop where
  nodup : (allTags b).Nodup
  lb : ∀ t ∈ allTags b, 52 ≤ t
  ub : ∀ t ∈ allTags b, t ≤ b.object_counter
  refsub : ∀ r ∈ allRefs b, r ∈ allTags b
  cnt : 55 ≤ b.object_counter
  fin : b.finals = []

/-- The atomic-pair synchronisation of the event tables: the name list,
its serialized copy, the numelements counter, the metadata list and its
counter all march in step. -/
def evSync (b : BehaviorFile) : Prop :=
  b.stringData.eventNames = b.stringData.event_name_list ∧
  b.stringData.nEvents = b.stringData.event_name_list.length ∧
  b.graphData.eventInfos.length = b.stringData.event_name_list.length ∧
  b.graphData.nEvents = b.graphData.eventInfos.length

/-- Whether the lookup loop finds the requested state and that state's
generator is a BGSGamebryoSequenceGenerator. -/
def foundGamebryo (l : List StateEntry) (s : String) : Bool :=
  match lookupLoop l s with
  | .found e => e.gen.isGamebryo
  | _ => false

/-! ### Lemmas on the event tables -/

/-- Scanning an extended list finds a present name at its old index. -/
lemma eventIdx_append_of_mem {l : List String} {a : String} (h : a ∈ l) (l2 : List String) :
    eventIdx (l ++ l2) a = eventIdx l a := by
  induction l with
  | nil => cases h
  | cons x xs ih =>
    by_cases hx : x = a
    · simp [eventIdx, hx]
    · have : a ∈ xs := by
        rcases List.mem_cons.mp h with h1 | h1
        · exact absurd h1.symm hx
        · exact h1
      simp [eventIdx, hx, ih this]

/-- A freshly appended name is found at the old length. -/
lemma eventIdx_append_self {l : List String} {a : String} (h : a ∉ l) :
    eventIdx (l ++ [a]) a = l.length := by
  induction l with
  | nil => simp [eventIdx]
  | cons x xs ih =>
    have hx : x ≠ a := fun hxa => h (hxa ▸ List.mem_cons_self x xs)
    have : a ∉ xs := fun hmem => h (List.mem_cons_of_mem x hmem)
    simp [eventIdx, hx, ih this]

/-- Fields of the builder untouched by getOrCreateEventID. -/
lemma getOrCreateEventID_unchanged (b : BehaviorFile) (e : String) :
    ((b.getOrCreateEventID e).2.object_counter = b.object_counter ∧
     (b.getOrCreateEventID e).2.list_of_states = b.list_of_states ∧
     (b.getOrCreateEventID e).2.wildcardtransitions = b.wildcardtransitions ∧
     (b.getOrCreateEventID e).2.blendTag = b.blendTag ∧
     (b.getOrCreateEventID e).2.finals = b.finals ∧
     (b.getOrCreateEventID e).2.smClassList = b.smClassList ∧
     (b.getOrCreateEventID e).2.nStates = b.nStates ∧
     (b.getOrCreateEventID e).2.vvsTag = b.vvsTag ∧
     (b.getOrCreateEventID e).2.stringData.tag = b.stringData.tag ∧
     (b.getOrCreateEventID e).2.graphData.tag = b.graphData.tag ∧
     (b.getOrCreateEventID e).2.graphData.variableInitialValues =
       b.graphData.variableInitialValues ∧
     (b.getOrCreateEventID e).2.graphData.stringDataRef = b.graphData.stringDataRef) := by
  unfold BehaviorFile.getOrCreateEventID
  split <;> simp

/-- getOrCreateEventID does not change the emitted data section (the
event tables grow inside already-emitted objects). -/
lemma dataObjects_getOrCreateEventID (b : BehaviorFile) (e : String) :
    dataObjects (b.getOrCreateEventID e).2 = dataObjects b := by
  unfold BehaviorFile.getOrCreateEventID
  split <;> simp [dataObjects]

lemma evSync_init : evSync BehaviorFile.init := by
  refine ⟨rfl, rfl, rfl, rfl⟩

lemma evSync_getOrCreateEventID {b : BehaviorFile} (h : evSync b) (e : String) :
    evSync (b.getOrCreateEventID e).2 := by
  obtain ⟨h1, h2, h3, h4⟩ := h
  unfold BehaviorFile.getOrCreateEventID
  split
  · exact ⟨h1, h2, h3, h4⟩
  · refine ⟨by simp [h1], by simp [h2], by simp [h3], by simp [h4]⟩

lemma evSync_OCnext {b : BehaviorFile} (h : evSync b) : evSync b._OCnext.2 := h

/-- The event registrations performed while building an event property
array preserve the synchronisation. -/
lemma evSync_mkEventPropertyArray {b : BehaviorFile} (h : evSync b) (evs : List String) :
    evSync (b.mkEventPropertyArray evs).2 := by
  unfold BehaviorFile.mkEventPropertyArray
  simp only
  suffices H : ∀ (l : List String) (acc : List Nat × BehaviorFile), evSync acc.2 →
      evSync (l.foldl (fun (acc : List Nat × BehaviorFile) ev =>
        let q := acc.2.getOrCreateEventID ev
        (acc.1 ++ [q.1], q.2)) acc).2 by
    exact H evs ([], b._OCnext.2) (evSync_OCnext h)
  intro l
  induction l with
  | nil => intro acc hacc; exact hacc
  | cons x xs ih =>
    intro acc hacc
    exact ih _ (evSync_getOrCreateEventID hacc x)

lemma evSync_mkEPAopt {b : BehaviorFile} (h : evSync b) (o : Option (List String)) :
    evSync (b.mkEPAopt o).2 := by
  cases o with
  | none => exact h
  | some evs => exact evSync_mkEventPropertyArray h evs

lemma evSync_add_state {b : BehaviorFile} (h : evSync b) (n p : String) (lo g : Bool)
    (en ex : Option (List String)) : evSync (b.add_state n p lo g en ex) := by
  unfold BehaviorFile.add_state
  split
  · exact h
  · split
    · exact h
    · exact evSync_mkEPAopt (evSync_mkEPAopt (evSync_OCnext (evSync_OCnext h)) en) ex

lemma evSync_connect_states {b : BehaviorFile} (h : evSync b) (s1 s2 e : String) :
    evSync (b.connect_states s1 s2 e).1 := by
  unfold BehaviorFile.connect_states
  split
  · exact h
  · split
    · exact evSync_getOrCreateEventID h e
    · exact evSync_getOrCreateEventID h e

lemma evSync_getOrCreatewildcardtransitions {b : BehaviorFile} (h : evSync b) :
    evSync b.getOrCreatewildcardtransitions.2 := by
  unfold BehaviorFile.getOrCreatewildcardtransitions
  split
  · exact h
  · exact h

lemma evSync_add_wildcard {b : BehaviorFile} (h : evSync b) (s e : String) :
    evSync (b.add_wildcard s e).1 := by
  unfold BehaviorFile.add_wildcard
  split
  · exact evSync_getOrCreatewildcardtransitions (evSync_getOrCreateEventID h e)
  · exact h

lemma evSync_add_clip_trigger {b : BehaviorFile} (h : evSync b) (s e : String)
    (r : Bool) (t : Rat) : evSync (b.add_clip_trigger s e r t).1 := by
  unfold BehaviorFile.add_clip_trigger
  split
  · exact h
  all_goals
    split
    · exact h
    · split
      · exact evSync_getOrCreateEventID h e
      · exact evSync_getOrCreateEventID (evSync_OCnext h) e

lemma evSync_applyOp {b : BehaviorFile} (h : evSync b) (op : Op) :
    evSync (b.applyOp op).1 := by
  cases op with
  | addState n p lo g en ex => exact evSync_add_state h n p lo g en ex
  | addClipTrigger s e r t => exact evSync_add_clip_trigger h s e r t
  | connectStates s1 s2 e => exact evSync_connect_states h s1 s2 e
  | addWildcard s e => exact evSync_add_wildcard h s e

lemma evSync_runFrom {b : BehaviorFile} (h : evSync b) (ops : List Op) :
    evSync (b.runFrom ops) := by
  induction ops generalizing b with
  | nil => exact h
  | cons op ops ih => exact ih (evSync_applyOp h op)

lemma evSync_runOps (ops : List Op) : evSync (runOps ops) :=
  evSync_runFrom evSync_init ops

/-- Calling getOrCreateEventID a second time with the same name returns
the same id and the same builder state. -/
lemma getOrCreateEventID_stable (b : BehaviorFile) (name : String) :
    ((b.getOrCreateEventID name).2).getOrCreateEventID name = b.getOrCreateEventID name := by
  unfold BehaviorFile.getOrCreateEventID
  by_cases h : name ∈ b.stringData.event_name_list
  · simp [h]
  · simp [h]

/-- C1.  On one BehaviorFile instance, after any sequence of builder
operations (each of which reaches the event tables only through
getOrCreateEventID) the event-name table of the
hkbBehaviorGraphStringData and the eventInfos table of the
hkbBehaviorGraphData have equal length (as do their numelements
counters), the tables stay equal in length after any further
getOrCreateEventID call, and repeating a getOrCreateEventID call with the
name just registered returns the same id and leaves the builder -- in
particular both tables -- unchanged. -/
theorem event_tables_synchronized_and_ids_stable (ops : List Op) (name : String) :
    ((runOps ops).graphData.eventInfos.length =
        (runOps ops).stringData.eventNames.length ∧
      (runOps ops).graphData.nEvents = (runOps ops).stringData.nEvents) ∧
    ((runOps ops).getOrCreateEventID name).2.graphData.eventInfos.length =
      ((runOps ops).getOrCreateEventID name).2.stringData.eventNames.length ∧
    ((runOps ops).getOrCreateEventID name).2.getOrCreateEventID name =
      (runOps ops).getOrCreateEventID name := by
  obtain ⟨h1, h2, h3, h4⟩ := evSync_runOps ops
  obtain ⟨g1, g2, g3, g4⟩ := evSync_getOrCreateEventID (evSync_runOps ops) name
  refine ⟨⟨?_, ?_⟩, ?_, getOrCreateEventID_stable _ name⟩
  · rw [h3, h1]
  · rw [h4, h3, h2]
  · rw [g3, g1]

/-- C10.  Event ids are dense and 0-based in registration order: the id
returned by getOrCreateEventID for a not-yet-registered name equals the
number of events registered before the call (the nEvents counter), and
that id is the index of the name in the serialized eventNames list. -/
theorem event_ids_dense_in_registration_order (ops : List Op) (name : String)
    (h : name ∉ (runOps ops).stringData.event_name_list) :
    ((runOps ops).getOrCreateEventID name).1 = (runOps ops).stringData.nEvents ∧
    eventIdx (((runOps ops).getOrCreateEventID name).2).stringData.eventNames name =
      ((runOps ops).getOrCreateEventID name).1 := by
  obtain ⟨h1, h2, h3, h4⟩ := evSync_runOps ops
  constructor
  · unfold BehaviorFile.getOrCreateEventID
    simp only [h, if_false]
    rw [eventIdx_append_self h, h2]
  · unfold BehaviorFile.getOrCreateEventID
    simp only [h, if_false]
    rw [h1]

/-- Witness for the C10 theorem at a concrete input: registering the
first event on a fresh builder yields id 0, the index of the name in the
serialized eventNames list. -/
theorem event_ids_dense_in_registration_order_witness :
    "StartWalk" ∉ (runOps []).stringData.event_name_list ∧
    (((runOps []).getOrCreateEventID "StartWalk").1 = (runOps []).stringData.nEvents ∧
      eventIdx (((runOps []).getOrCreateEventID "StartWalk").2).stringData.eventNames
          "StartWalk" =
        ((runOps []).getOrCreateEventID "StartWalk").1) :=
  ⟨by decide, event_ids_dense_in_registration_order [] "StartWalk" (by decide)⟩

/-! ### Error handling: missing-state lookups and generator type checks -/

/-- C3 (evaluation at the failing input).  With states Idle and Walk
registered, connect_states from Idle to a non-existent state name does
not leave the graph unchanged: no exception is raised, the event is
registered, and -- because the destination lookup loop only warns and
falls through with its loop variables still bound to the last list
element -- a transition from Idle to Walk (stateId 1) is appended to
Idle's transition table. -/
theorem connect_states_missing_state_mutates_graph :
    ((runOps [.addState "Idle" "anims/idle.hkx" true false none none,
              .addState "Walk" "anims/walk.hkx" true false none none]).connect_states
        "Idle" "Missing" "Ev").2 = none ∧
    ((runOps [.addState "Idle" "anims/idle.hkx" true false none none,
              .addState "Walk" "anims/walk.hkx" true false none none]).connect_states
        "Idle" "Missing" "Ev").1.stringData.event_name_list = ["Ev"] ∧
    ((runOps [.addState "Idle" "anims/idle.hkx" true false none none,
              .addState "Walk" "anims/walk.hkx" true false none none]).connect_states
        "Idle" "Missing" "Ev").1.list_of_states.map
        (fun e => (e.name, e.transitions.numTransitions,
          e.transitions.transitions.map (·.toStateId))) =
      [("Idle", 1, [1]), ("Walk", 0, [])] ∧
    (runOps [.addState "Idle" "anims/idle.hkx" true false none none,
             .addState "Walk" "anims/walk.hkx" true false none none]).stringData.event_name_list
      = [] ∧
    (runOps [.addState "Idle" "anims/idle.hkx" true false none none,
             .addState "Walk" "anims/walk.hkx" true false none none]).list_of_states.map
        (fun e => e.transitions.numTransitions) = [0, 0] := by
  decide

/-- C8 (evaluation at the failing input).  With only the clip state Idle
registered, add_clip_trigger on a non-existent state name does not raise
a hard error and does create a trigger: the lookup loop warns and falls
through with the loop variables bound to the last entry, so a clip
trigger table holding the trigger is created and attached to Idle, and
the event is registered. -/
theorem add_clip_trigger_missing_state_mutates_graph :
    ((runOps [.addState "Idle" "anims/idle.hkx" true false none none]).add_clip_trigger
        "Missing" "Ev" false 0).2 = none ∧
    ((runOps [.addState "Idle" "anims/idle.hkx" true false none none]).add_clip_trigger
        "Missing" "Ev" false 0).1.stringData.event_name_list = ["Ev"] ∧
    ((runOps [.addState "Idle" "anims/idle.hkx" true false none none]).add_clip_trigger
        "Missing" "Ev" false 0).1.list_of_states.map
        (fun e => (e.name, e.info.clipTriggerArr.map (·.num_elements))) =
      [("Idle", some 1)] ∧
    (runOps [.addState "Idle" "anims/idle.hkx" true false none none]).list_of_states.map
        (fun e => e.info.clipTriggerArr) = [none] := by
  decide

/-- C9.  add_clip_trigger on a state whose generator is a
BGSGamebryoSequenceGenerator (a state added with use_legacy_generator
true) always raises TypeError, whatever the other arguments, and returns
the builder unchanged. -/
theorem add_clip_trigger_on_legacy_generator_raises_type_error
    (b : BehaviorFile) (s event : String) (r : Bool) (t : Rat)
    (h : foundGamebryo b.list_of_states s = true) :
    b.add_clip_trigger s event r t = (b, some .typeError) := by
  unfold foundGamebryo at h
  unfold BehaviorFile.add_clip_trigger
  revert h
  rcases hl : lookupLoop b.list_of_states s with e | e | _ <;> intro h <;> simp at h
  simp [h]

/-- Witness for the C9 theorem at a concrete input: a builder holding
one legacy (gamebryo) state Pose rejects add_clip_trigger with TypeError
and is left unchanged. -/
theorem add_clip_trigger_on_legacy_generator_raises_type_error_witness :
    (runOps [.addState "Pose" "placeholder" false true none none]).add_clip_trigger
        "Pose" "Ev" false 0 =
      (runOps [.addState "Pose" "placeholder" false true none none], some .typeError) :=
  add_clip_trigger_on_legacy_generator_raises_type_error
    (runOps [.addState "Pose" "placeholder" false true none none]) "Pose" "Ev" false 0
    (by decide)

/-! ### Instance independence (the class-attribute split) -/

lemma instB_ocNext (p : Proc2) : ((p.ocNext .wA).2).instB = p.instB := rfl

lemma instA_ocNext (p : Proc2) : ((p.ocNext .wB).2).instA = p.instA := rfl

lemma instB_goc (p : Proc2) (e : String) :
    ((p.getOrCreateEventID .wA e).2).instB = p.instB := by
  unfold Proc2.getOrCreateEventID
  split <;> rfl

lemma instA_goc (p : Proc2) (e : String) :
    ((p.getOrCreateEventID .wB e).2).instA = p.instA := by
  unfold Proc2.getOrCreateEventID
  split <;> rfl

lemma instB_mkEventPropertyArray (p : Proc2) (evs : List String) :
    ((p.mkEventPropertyArray .wA evs).2).instB = p.instB := by
  unfold Proc2.mkEventPropertyArray
  simp only
  suffices H : ∀ (l : List String) (acc : List Nat × Proc2),
      (l.foldl (fun (acc : List Nat × Proc2) ev =>
        let s := acc.2.getOrCreateEventID .wA ev
        (acc.1 ++ [s.1], s.2)) acc).2.instB = acc.2.instB by
    rw [H]
    rfl
  intro l
  induction l with
  | nil => intro acc; rfl
  | cons x xs ih =>
    intro acc
    rw [List.foldl_cons, ih]
    exact instB_goc acc.2 x

lemma instA_mkEventPropertyArray (p : Proc2) (evs : List String) :
    ((p.mkEventPropertyArray .wB evs).2).instA = p.instA := by
  unfold Proc2.mkEventPropertyArray
  simp only
  suffices H : ∀ (l : List String) (acc : List Nat × Proc2),
      (l.foldl (fun (acc : List Nat × Proc2) ev =>
        let s := acc.2.getOrCreateEventID .wB ev
        (acc.1 ++ [s.1], s.2)) acc).2.instA = acc.2.instA by
    rw [H]
    rfl
  intro l
  induction l with
  | nil => intro acc; rfl
  | cons x xs ih =>
    intro acc
    rw [List.foldl_cons, ih]
    exact instA_goc acc.2 x

lemma instB_mkEPAopt (p : Proc2) (o : Option (List String)) :
    ((p.mkEPAopt .wA o).2).instB = p.instB := by
  cases o with
  | none => rfl
  | some evs => exact instB_mkEventPropertyArray p evs

lemma instA_mkEPAopt (p : Proc2) (o : Option (List String)) :
    ((p.mkEPAopt .wB o).2).instA = p.instA := by
  cases o with
  | none => rfl
  | some evs => exact instA_mkEventPropertyArray p evs

lemma instB_add_state (p : Proc2) (n pa : String) (lo g : Bool)
    (en ex : Option (List String)) :
    (p.add_state .wA n pa lo g en ex).instB = p.instB := by
  unfold Proc2.add_state
  split
  · rfl
  · split
    · rfl
    · simp [Proc2.setInst, Proc2.inst, instB_ocNext, instB_mkEPAopt]

lemma instA_add_state (p : Proc2) (n pa : String) (lo g : Bool)
    (en ex : Option (List String)) :
    (p.add_state .wB n pa lo g en ex).instA = p.instA := by
  unfold Proc2.add_state
  split
  · rfl
  · split
    · rfl
    · simp [Proc2.setInst, Proc2.inst, instA_ocNext, instA_mkEPAopt]

lemma instB_connect_states (p : Proc2) (s1 s2 e : String) :
    ((p.connect_states .wA s1 s2 e).1).instB = p.instB := by
  unfold Proc2.connect_states
  split
  · rfl
  · split
    · exact instB_goc p e
    · exact instB_goc p e

lemma instA_connect_states (p : Proc2) (s1 s2 e : String) :
    ((p.connect_states .wB s1 s2 e).1).instA = p.instA := by
  unfold Proc2.connect_states
  split
  · rfl
  · split
    · exact instA_goc p e
    · exact instA_goc p e

lemma instB_gocwc (p : Proc2) :
    ((p.getOrCreatewildcardtransitions .wA).2).instB = p.instB := by
  unfold Proc2.getOrCreatewildcardtransitions
  split
  · rfl
  · simp [Proc2.setInst, Proc2.inst, instB_ocNext]

lemma instA_gocwc (p : Proc2) :
    ((p.getOrCreatewildcardtransitions .wB).2).instA = p.instA := by
  unfold Proc2.getOrCreatewildcardtransitions
  split
  · rfl
  · simp [Proc2.setInst, Proc2.inst, instA_ocNext]

lemma instB_add_wildcard (p : Proc2) (s e : String) :
    ((p.add_wildcard .wA s e).1).instB = p.instB := by
  unfold Proc2.add_wildcard
  split
  · simp [Proc2.setInst, Proc2.inst, instB_gocwc, instB_goc]
  · rfl

lemma instA_add_wildcard (p : Proc2) (s e : String) :
    ((p.add_wildcard .wB s e).1).instA = p.instA := by
  unfold Proc2.add_wildcard
  split
  · simp [Proc2.setInst, Proc2.inst, instA_gocwc, instA_goc]
  · rfl

lemma instB_add_clip_trigger (p : Proc2) (s e : String) (r : Bool) (t : Rat) :
    ((p.add_clip_trigger .wA s e r t).1).instB = p.instB := by
  unfold Proc2.add_clip_trigger
  split
  · rfl
  all_goals
    split
    · rfl
    · split
      · exact instB_goc p e
      · exact instB_goc _ e

lemma instA_add_clip_trigger (p : Proc2) (s e : String) (r : Bool) (t : Rat) :
    ((p.add_clip_trigger .wB s e r t).1).instA = p.instA := by
  unfold Proc2.add_clip_trigger
  split
  · rfl
  all_goals
    split
    · rfl
    · split
      · exact instA_goc p e
      · exact instA_goc _ e

/-- C5 (amended part).  In a process holding the two BehaviorFile
instances A and B, every builder mutation operation performed on one
instance leaves the other instance's instance-owned attributes -- in
particular its tag counter -- entirely unchanged. -/
theorem mutations_leave_other_instance_attributes_unchanged (p : Proc2) (op : Op) :
    ((p.applyOn .wA op).1).instB = p.instB ∧ ((p.applyOn .wB op).1).instA = p.instA := by
  cases op with
  | addState n pa lo g en ex =>
    exact ⟨instB_add_state p n pa lo g en ex, instA_add_state p n pa lo g en ex⟩
  | addClipTrigger s e r t =>
    exact ⟨instB_add_clip_trigger p s e r t, instA_add_clip_trigger p s e r t⟩
  | connectStates s1 s2 e =>
    exact ⟨instB_connect_states p s1 s2 e, instA_connect_states p s1 s2 e⟩
  | addWildcard s e =>
    exact ⟨instB_add_wildcard p s e, instA_add_wildcard p s e⟩

/-- C5 (counterexample).  Two BehaviorFile instances are not fully
independent: list_of_states and the XML document are class-level
attributes, so add_state called on instance A appends to the very state
list and document instance B observes (while B's instance-owned counters
are untouched).  Before the call the shared state list is empty and the
shared document holds the eight base objects of the two constructors;
after A's add_state the list observed through B holds one state and the
document eleven objects. -/
theorem add_state_on_one_instance_changes_other_instances_views :
    Proc2.init.shared_states.length = 0 ∧
    ((Proc2.init.applyOn .wA
        (.addState "Idle" "anims/idle.hkx" false false none none)).1).shared_states.length
      = 1 ∧
    Proc2.init.shared_doc.length = 8 ∧
    ((Proc2.init.applyOn .wA
        (.addState "Idle" "anims/idle.hkx" false false none none)).1).shared_doc.length
      = 11 ∧
    ((Proc2.init.applyOn .wA
        (.addState "Idle" "anims/idle.hkx" false false none none)).1).instB
      = Proc2.init.instB := by
  decide

/-- C4 (counterexample).  The finalize step is not idempotent: running
export twice on the same builder performs __finalize twice, and the
second run appends a second hkbStateMachine, a second hkbBehaviorGraph
and a second hkRootLevelContainer entry to the data section instead of
leaving the assembled graph unchanged. -/
theorem finalize_twice_duplicates_toplevel_objects :
    countClass "hkbStateMachine"
        (dataObjects ((runOps [.addState "Idle" "anims/idle.hkx" true false none none]
          ).finalize.finalize)) = 2 ∧
    countClass "hkbBehaviorGraph"
        (dataObjects ((runOps [.addState "Idle" "anims/idle.hkx" true false none none]
          ).finalize.finalize)) = 2 ∧
    countClass "hkRootLevelContainer"
        (dataObjects ((runOps [.addState "Idle" "anims/idle.hkx" true false none none]
          ).finalize.finalize)) = 2 ∧
    countClass "hkbStateMachine"
        (dataObjects ((runOps [.addState "Idle" "anims/idle.hkx" true false none none]
          ).finalize)) = 1 := by
  decide

/-! ### Frame lemmas: what each helper leaves untouched -/

lemma SameShell_refl (b : BehaviorFile) : SameShell b b :=
  ⟨rfl, rfl, rfl, rfl, rfl, rfl, rfl, rfl, rfl, rfl, rfl, rfl⟩

lemma SameShell.comp {a b c : BehaviorFile} (h1 : SameShell a b) (h2 : SameShell b c) :
    SameShell a c :=
  ⟨h2.counter.trans h1.counter, h2.list.trans h1.list, h2.wc.trans h1.wc,
   h2.nst.trans h1.nst, h2.fin.trans h1.fin, h2.smcl.trans h1.smcl,
   h2.blend.trans h1.blend, h2.vvs.trans h1.vvs, h2.sdTag.trans h1.sdTag,
   h2.gdTag.trans h1.gdTag, h2.gdVvs.trans h1.gdVvs, h2.gdSd.trans h1.gdSd⟩

lemma SameShell_goc (b : BehaviorFile) (e : String) :
    SameShell b (b.getOrCreateEventID e).2 := by
  unfold BehaviorFile.getOrCreateEventID
  split
  · exact SameShell_refl b
  · exact ⟨rfl, rfl, rfl, rfl, rfl, rfl, rfl, rfl, rfl, rfl, rfl, rfl⟩

/-- Tag and frame of hkbStateMachineEventPropertyArray construction: the
array receives the next counter value as its tag and, besides the event
registrations, only the counter moves (by exactly one). -/
lemma mkEPA_spec (b : BehaviorFile) (evs : List String) :
    (b.mkEventPropertyArray evs).1.tag = b.object_counter + 1 ∧
    SameShell b._OCnext.2 (b.mkEventPropertyArray evs).2 := by
  unfold BehaviorFile.mkEventPropertyArray
  simp only
  constructor
  · rfl
  · suffices H : ∀ (l : List String) (acc : List Nat × BehaviorFile),
        SameShell acc.2 ((l.foldl (fun (acc : List Nat × BehaviorFile) ev =>
          let q := acc.2.getOrCreateEventID ev
          (acc.1 ++ [q.1], q.2)) acc)).2 by
      exact H evs ([], b._OCnext.2)
    intro l
    induction l with
    | nil => intro acc; exact SameShell_refl acc.2
    | cons x xs ih =>
      intro acc
      rw [List.foldl_cons]
      exact (SameShell_goc acc.2 x).comp
        (ih (acc.1 ++ [(acc.2.getOrCreateEventID x).1], (acc.2.getOrCreateEventID x).2))

lemma mkEPA_counter (b : BehaviorFile) (evs : List String) :
    (b.mkEventPropertyArray evs).2.object_counter = b.object_counter + 1 :=
  (mkEPA_spec b evs).2.counter

lemma mkEPA_list (b : BehaviorFile) (evs : List String) :
    (b.mkEventPropertyArray evs).2.list_of_states = b.list_of_states :=
  (mkEPA_spec b evs).2.list

/-- Frame of the optional property-array construction: none leaves the
builder untouched, some moves the counter by one. -/
lemma mkEPAopt_shell (b : BehaviorFile) (o : Option (List String)) :
    SameShell b (b.mkEPAopt o).2 ∨ SameShell b._OCnext.2 (b.mkEPAopt o).2 := by
  cases o with
  | none => exact Or.inl (SameShell_refl b)
  | some evs => exact Or.inr (mkEPA_spec b evs).2

/-- Shape of an if-selected generator: its tag and the absence of
references do not depend on the branch. -/
lemma genIf_tag (c : Prop) [Decidable c] (t : Nat) (n a : String) (lo : Bool) :
    (if c then Gen.clip t n a lo none else Gen.gamebryo t n).tag = t := by
  split <;> rfl

lemma genIf_refs (c : Prop) [Decidable c] (t : Nat) (n a : String) (lo : Bool) :
    (if c then Gen.clip t n a lo none else Gen.gamebryo t n).obj.refs = [] := by
  split <;> rfl

lemma genIf_objTag (c : Prop) [Decidable c] (t : Nat) (n a : String) (lo : Bool) :
    (if c then Gen.clip t n a lo none else Gen.gamebryo t n).obj.tag = t := by
  split <;> rfl

lemma mkEPA_wc (b : BehaviorFile) (evs : List String) :
    (b.mkEventPropertyArray evs).2.wildcardtransitions = b.wildcardtransitions :=
  (mkEPA_spec b evs).2.wc

lemma mkEPA_nst (b : BehaviorFile) (evs : List String) :
    (b.mkEventPropertyArray evs).2.nStates = b.nStates :=
  (mkEPA_spec b evs).2.nst

lemma mkEPA_fin (b : BehaviorFile) (evs : List String) :
    (b.mkEventPropertyArray evs).2.finals = b.finals :=
  (mkEPA_spec b evs).2.fin

lemma mkEPA_smcl (b : BehaviorFile) (evs : List String) :
    (b.mkEventPropertyArray evs).2.smClassList = b.smClassList :=
  (mkEPA_spec b evs).2.smcl

lemma mkEPA_blend (b : BehaviorFile) (evs : List String) :
    (b.mkEventPropertyArray evs).2.blendTag = b.blendTag :=
  (mkEPA_spec b evs).2.blend

lemma mkEPA_vvs (b : BehaviorFile) (evs : List String) :
    (b.mkEventPropertyArray evs).2.vvsTag = b.vvsTag :=
  (mkEPA_spec b evs).2.vvs

lemma mkEPA_sdTag (b : BehaviorFile) (evs : List String) :
    (b.mkEventPropertyArray evs).2.stringData.tag = b.stringData.tag :=
  (mkEPA_spec b evs).2.sdTag

lemma mkEPA_gdTag (b : BehaviorFile) (evs : List String) :
    (b.mkEventPropertyArray evs).2.graphData.tag = b.graphData.tag :=
  (mkEPA_spec b evs).2.gdTag

lemma mkEPA_gdVvs (b : BehaviorFile) (evs : List String) :
    (b.mkEventPropertyArray evs).2.graphData.variableInitialValues =
      b.graphData.variableInitialValues :=
  (mkEPA_spec b evs).2.gdVvs

lemma mkEPA_gdSd (b : BehaviorFile) (evs : List String) :
    (b.mkEventPropertyArray evs).2.graphData.stringDataRef = b.graphData.stringDataRef :=
  (mkEPA_spec b evs).2.gdSd

lemma mkEPA_tag (b : BehaviorFile) (evs : List String) :
    (b.mkEventPropertyArray evs).1.tag = b.object_counter + 1 :=
  (mkEPA_spec b evs).1

/-- Builder components never touched by add_state, in any branch. -/
lemma add_state_frame (b : BehaviorFile) (name pa : String) (lo g : Bool)
    (en ex : Option (List String)) :
    (b.add_state name pa lo g en ex).wildcardtransitions = b.wildcardtransitions ∧
    (b.add_state name pa lo g en ex).finals = b.finals ∧
    (b.add_state name pa lo g en ex).smClassList = b.smClassList ∧
    (b.add_state name pa lo g en ex).blendTag = b.blendTag ∧
    (b.add_state name pa lo g en ex).vvsTag = b.vvsTag ∧
    (b.add_state name pa lo g en ex).stringData.tag = b.stringData.tag ∧
    (b.add_state name pa lo g en ex).graphData.tag = b.graphData.tag ∧
    (b.add_state name pa lo g en ex).graphData.variableInitialValues =
      b.graphData.variableInitialValues ∧
    (b.add_state name pa lo g en ex).graphData.stringDataRef = b.graphData.stringDataRef ∧
    b.object_counter ≤ (b.add_state name pa lo g en ex).object_counter := by
  unfold BehaviorFile.add_state
  split
  · exact ⟨rfl, rfl, rfl, rfl, rfl, rfl, rfl, rfl, rfl, Nat.le_refl _⟩
  split
  · exact ⟨rfl, rfl, rfl, rfl, rfl, rfl, rfl, rfl, rfl, Nat.le_refl _⟩
  · rcases en with _ | evs1 <;> rcases ex with _ | evs2 <;>
      refine ⟨?_, ?_, ?_, ?_, ?_, ?_, ?_, ?_, ?_, ?_⟩ <;>
      simp only [BehaviorFile.mkEPAopt, BehaviorFile._OCnext, mkEPA_wc, mkEPA_fin,
        mkEPA_smcl, mkEPA_blend, mkEPA_vvs, mkEPA_sdTag, mkEPA_gdTag, mkEPA_gdVvs,
        mkEPA_gdSd, mkEPA_counter, mkEPA_nst, mkEPA_list] <;>
      first
      | rfl
      | omega

/-- The registering branch of add_state appends exactly the
addStateEntry. -/
lemma add_state_register_list (b : BehaviorFile) (name pa : String) (lo g : Bool)
    (en ex : Option (List String))
    (h1 : ¬(¬g = true ∧ pa = "placeholder"))
    (h2 : ¬(b.list_of_states.any fun e => e.name = name) = true) :
    (b.add_state name pa lo g en ex).list_of_states =
      b.list_of_states ++ [addStateEntry b name pa lo g en ex] := by
  unfold BehaviorFile.add_state addStateEntry
  rw [if_neg h1, if_neg h2]
  rcases en with _ | evs1 <;> rcases ex with _ | evs2 <;>
    simp only [BehaviorFile.mkEPAopt, BehaviorFile._OCnext, mkEPA_list]

/-- The registering branch of add_state increments nStates. -/
lemma add_state_register_nStates (b : BehaviorFile) (name pa : String) (lo g : Bool)
    (en ex : Option (List String))
    (h1 : ¬(¬g = true ∧ pa = "placeholder"))
    (h2 : ¬(b.list_of_states.any fun e => e.name = name) = true) :
    (b.add_state name pa lo g en ex).nStates = b.nStates + 1 := by
  unfold BehaviorFile.add_state
  rw [if_neg h1, if_neg h2]
  rcases en with _ | evs1 <;> rcases ex with _ | evs2 <;>
    simp only [BehaviorFile.mkEPAopt, BehaviorFile._OCnext, mkEPA_nst]

/-- Exact counter advance of the registering branch of add_state. -/
lemma add_state_register_counter (b : BehaviorFile) (name pa : String) (lo g : Bool)
    (en ex : Option (List String))
    (h1 : ¬(¬g = true ∧ pa = "placeholder"))
    (h2 : ¬(b.list_of_states.any fun e => e.name = name) = true) :
    (b.add_state name pa lo g en ex).object_counter =
      b.object_counter + 3 + epaCount en + epaCount ex := by
  unfold BehaviorFile.add_state
  rw [if_neg h1, if_neg h2]
  rcases en with _ | evs1 <;> rcases ex with _ | evs2 <;>
    simp only [BehaviorFile.mkEPAopt, BehaviorFile._OCnext, mkEPA_counter, epaCount] <;>
    omega

lemma addStateEntry_name (b : BehaviorFile) (name pa : String) (lo g : Bool)
    (en ex : Option (List String)) :
    (addStateEntry b name pa lo g en ex).name = name := rfl

lemma addStateEntry_numTransitions (b : BehaviorFile) (name pa : String) (lo g : Bool)
    (en ex : Option (List String)) :
    (addStateEntry b name pa lo g en ex).transitions.numTransitions = 0 := rfl

lemma addStateEntry_cta (b : BehaviorFile) (name pa : String) (lo g : Bool)
    (en ex : Option (List String)) :
    (addStateEntry b name pa lo g en ex).info.clipTriggerArr = none := rfl

/-- The freshly created objects of one registered state carry pairwise
distinct tags lying strictly above the previous counter value and at
most at the counter value the registering add_state leaves behind. -/
lemma addStateEntry_tags (b : BehaviorFile) (name pa : String) (lo g : Bool)
    (en ex : Option (List String)) :
    (((addStateEntry b name pa lo g en ex).objs.map (·.tag)).Nodup ∧
      ∀ t ∈ (addStateEntry b name pa lo g en ex).objs.map (·.tag),
        b.object_counter < t ∧ t ≤ b.object_counter + 3 + epaCount en + epaCount ex) := by
  rcases en with _ | evs1 <;> rcases ex with _ | evs2 <;>
    simp only [addStateEntry, BehaviorFile.mkEPAopt, BehaviorFile._OCnext,
      StateEntry.objs, epaObjs, ctaObjs, genIf_objTag, mkEPA_tag, mkEPA_counter,
      epaCount] <;>
    constructor <;>
    simp [List.nodup_cons, genIf_objTag, genIf_tag, mkEPA_tag, mkEPA_counter] <;>
    omega

/-- Every non-null reference of a freshly registered state entry points
at one of the entry's own objects. -/
lemma addStateEntry_refs (b : BehaviorFile) (name pa : String) (lo g : Bool)
    (en ex : Option (List String)) :
    ∀ r ∈ (addStateEntry b name pa lo g en ex).objs.flatMap (·.refs),
      r ∈ (addStateEntry b name pa lo g en ex).objs.map (·.tag) := by
  rcases en with _ | evs1 <;> rcases ex with _ | evs2 <;>
    simp only [addStateEntry, BehaviorFile.mkEPAopt, BehaviorFile._OCnext,
      StateEntry.objs, epaObjs, ctaObjs, genIf_objTag, genIf_refs, mkEPA_tag,
      mkEPA_counter, TransitionArray.refList, optRef] <;>
    intro r hr <;>
    simp [genIf_objTag, genIf_refs, genIf_tag, mkEPA_tag, mkEPA_counter,
      optRef] at hr ⊢ <;>
    omega

/-! ### Lemmas on the lookup and update loops -/

lemma lookupLoop_found_name :
    ∀ (l : List StateEntry) (n : String) (e : StateEntry),
      lookupLoop l n = .found e → e.name = n := by
  intro l
  induction l with
  | nil => intro n e h; cases h
  | cons x xs ih =>
    intro n e h
    cases xs with
    | nil =>
      unfold lookupLoop at h
      by_cases hx : x.name = n
      · simp [hx] at h
        rw [← h]; exact hx
      · simp [hx] at h
    | cons y ys =>
      unfold lookupLoop at h
      by_cases hx : x.name = n
      · simp [hx] at h
        rw [← h]; exact hx
      · simp [hx] at h
        exact ih n e h

lemma lookupLoop_bound_none :
    ∀ (l : List StateEntry) (n : String),
      (lookupLoop l n).bound = none ↔ l = [] := by
  intro l
  induction l with
  | nil => intro n; simp [lookupLoop, LookupResult.bound]
  | cons x xs ih =>
    intro n
    cases xs with
    | nil =>
      unfold lookupLoop
      by_cases hx : x.name = n <;> simp [hx, LookupResult.bound]
    | cons y ys =>
      unfold lookupLoop
      by_cases hx : x.name = n
      · simp [hx, LookupResult.bound]
      · simp [hx, ih]

/-- The update loop rewrites exactly one entry: the one the lookup loop
leaves in the loop variables. -/
lemma updateLoop_decomp (f : StateEntry → StateEntry) :
    ∀ (l : List StateEntry) (n : String) (e : StateEntry),
      (lookupLoop l n).bound = some e →
      ∃ l1 l2, l = l1 ++ e :: l2 ∧ updateLoop f l n = l1 ++ f e :: l2 := by
  intro l
  induction l with
  | nil => intro n e h; cases h
  | cons x xs ih =>
    intro n e h
    cases xs with
    | nil =>
      unfold lookupLoop at h
      unfold updateLoop
      by_cases hx : x.name = n <;> simp [hx, LookupResult.bound] at h ⊢ <;>
        exact ⟨[], [], by simp [h], by simp [h]⟩
    | cons y ys =>
      unfold lookupLoop at h
      unfold updateLoop
      by_cases hx : x.name = n
      · simp [hx, LookupResult.bound] at h ⊢
        exact ⟨[], y :: ys, by simp [h], by simp [h]⟩
      · simp [hx] at h ⊢
        obtain ⟨l1, l2, hl, hu⟩ := ih n e h
        exact ⟨x :: l1, l2, by simp [hl], by simp [hu]⟩

lemma updateLoop_length (f : StateEntry → StateEntry) :
    ∀ (l : List StateEntry) (n : String), (updateLoop f l n).length = l.length := by
  intro l
  induction l with
  | nil => intro n; rfl
  | cons x xs ih =>
    intro n
    cases xs with
    | nil => unfold updateLoop; by_cases hx : x.name = n <;> simp [hx]
    | cons y ys =>
      unfold updateLoop
      by_cases hx : x.name = n
      · simp [hx]
      · simp [hx, ih]

lemma updateLoop_map_name (f : StateEntry → StateEntry)
    (hf : ∀ x, (f x).name = x.name) :
    ∀ (l : List StateEntry) (n : String),
      (updateLoop f l n).map (·.name) = l.map (·.name) := by
  intro l
  induction l with
  | nil => intro n; rfl
  | cons x xs ih =>
    intro n
    cases xs with
    | nil => unfold updateLoop; by_cases hx : x.name = n <;> simp [hx, hf]
    | cons y ys =>
      unfold updateLoop
      by_cases hx : x.name = n
      · simp [hx, hf]
      · simp [hx, ih]

/-! ### Lemmas on transCount and sumTrans -/

lemma transCount_eq_zero_of_not_any {l : List StateEntry} {n : String}
    (h : (l.any fun e => e.name = n) = false) : transCount l n = 0 := by
  induction l with
  | nil => rfl
  | cons x xs ih =>
    simp at h
    unfold transCount
    rw [if_neg h.1]
    exact ih (by simpa using h.2)

lemma transCount_append_stale (l : List StateEntry) (l2 : List StateEntry) (m : String)
    (h : (l.any fun e => e.name = m) = true) :
    transCount (l ++ l2) m = transCount l m := by
  induction l with
  | nil => simp at h
  | cons x xs ih =>
    rw [List.cons_append]
    unfold transCount
    by_cases hx : x.name = m
    · rw [if_pos hx, if_pos hx]
    · rw [if_neg hx, if_neg hx]
      simp [hx] at h
      exact ih (by simpa using h)

lemma transCount_append_fresh (l : List StateEntry) (e : StateEntry) (m : String)
    (h : (l.any fun x => x.name = m) = false) :
    transCount (l ++ [e]) m =
      if e.name = m then e.transitions.numTransitions else 0 := by
  induction l with
  | nil => simp [transCount]
  | cons x xs ih =>
    simp at h
    rw [List.cons_append]
    unfold transCount
    rw [if_neg h.1]
    exact ih (by simpa using h.2)

lemma transCount_of_found :
    ∀ (l : List StateEntry) (n : String) (e : StateEntry),
      lookupLoop l n = .found e → transCount l n = e.transitions.numTransitions := by
  intro l
  induction l with
  | nil => intro n e h; cases h
  | cons x xs ih =>
    intro n e h
    cases xs with
    | nil =>
      unfold lookupLoop at h
      by_cases hx : x.name = n <;> simp [hx] at h
      simp [transCount, hx, ← h]
    | cons y ys =>
      unfold lookupLoop at h
      by_cases hx : x.name = n
      · simp [hx] at h
        simp [transCount, hx, ← h]
      · simp [hx] at h
        unfold transCount
        rw [if_neg hx]
        exact ih n e h

/-- Effect of the update loop on the per-state transition counts when the
state is actually found: the named state's count is replaced, all other
counts survive. -/
lemma transCount_updateLoop_found (f : StateEntry → StateEntry)
    (hfname : ∀ x, (f x).name = x.name) :
    ∀ (l : List StateEntry) (n : String) (e : StateEntry),
      lookupLoop l n = .found e →
      ∀ m, transCount (updateLoop f l n) m =
        if m = n then (f e).transitions.numTransitions else transCount l m := by
  intro l
  induction l with
  | nil => intro n e h; cases h
  | cons x xs ih =>
    intro n e h m
    cases xs with
    | nil =>
      unfold lookupLoop at h
      by_cases hx : x.name = n <;> simp [hx] at h
      subst h
      unfold updateLoop
      rw [if_pos hx]
      by_cases hm : m = n
      · subst hm
        simp [transCount, hfname, hx]
      · have hxm : ¬ x.name = m := by rw [hx]; exact fun hh => hm hh.symm
        simp [transCount, hfname, hxm, hm]
    | cons y ys =>
      unfold lookupLoop at h
      by_cases hx : x.name = n
      · simp [hx] at h
        subst h
        unfold updateLoop
        rw [if_pos hx]
        by_cases hm : m = n
        · subst hm
          simp [transCount, hfname, hx]
        · have hxm : ¬ x.name = m := by rw [hx]; exact fun hh => hm hh.symm
          simp [transCount, hfname, hxm, hm]
      · simp [hx] at h
        unfold updateLoop
        rw [if_neg hx]
        by_cases hm : m = n
        · subst hm
          have hxm : ¬ x.name = m := hx
          unfold transCount
          rw [if_neg hxm, if_neg hxm, ih _ _ h]
        · by_cases hxm : x.name = m
          · unfold transCount
            rw [if_pos hxm, if_pos hxm, if_neg hm]
          · unfold transCount
            rw [if_neg hxm, if_neg hxm, ih _ _ h, if_neg hm]

/-- The update loop leaves every per-state transition count unchanged
when the update does not touch the transitions component (the
add_clip_trigger update). -/
lemma transCount_updateLoop_preserve (f : StateEntry → StateEntry)
    (hfname : ∀ x, (f x).name = x.name)
    (hftr : ∀ x, (f x).transitions = x.transitions) :
    ∀ (l : List StateEntry) (n m : String),
      transCount (updateLoop f l n) m = transCount l m := by
  intro l
  induction l with
  | nil => intro n m; rfl
  | cons x xs ih =>
    intro n m
    cases xs with
    | nil =>
      unfold updateLoop
      by_cases hx : x.name = n <;> simp [hx, transCount, hfname, hftr]
    | cons y ys =>
      unfold updateLoop
      by_cases hx : x.name = n
      · simp [hx, transCount, hfname, hftr]
      · simp only [if_neg hx, transCount, ih]

lemma sumTrans_append (l : List StateEntry) (e : StateEntry) :
    sumTrans (l ++ [e]) = sumTrans l + e.transitions.numTransitions := by
  simp [sumTrans]

/-- The update loop adds exactly one transition to the total when the
update appends one transition and the list is non-empty. -/
lemma sumTrans_updateLoop (f : StateEntry → StateEntry)
    (hf : ∀ x, (f x).transitions.numTransitions = x.transitions.numTransitions + 1) :
    ∀ (l : List StateEntry) (n : String), l ≠ [] →
      sumTrans (updateLoop f l n) = sumTrans l + 1 := by
  intro l
  induction l with
  | nil => intro n h; exact absurd rfl h
  | cons x xs ih =>
    intro n _
    cases xs with
    | nil =>
      unfold updateLoop
      by_cases hx : x.name = n <;> simp [hx, sumTrans, hf]
    | cons y ys =>
      unfold updateLoop
      by_cases hx : x.name = n
      · simp [hx, sumTrans, hf]
        omega
      · rw [if_neg hx]
        have := ih n (by simp)
        simp [sumTrans] at this ⊢
        omega

lemma sumTrans_updateLoop_preserve (f : StateEntry → StateEntry)
    (hftr : ∀ x, (f x).transitions = x.transitions) :
    ∀ (l : List StateEntry) (n : String),
      sumTrans (updateLoop f l n) = sumTrans l := by
  intro l
  induction l with
  | nil => intro n; rfl
  | cons x xs ih =>
    intro n
    cases xs with
    | nil =>
      unfold updateLoop
      by_cases hx : x.name = n <;> simp [hx, sumTrans, hftr]
    | cons y ys =>
      unfold updateLoop
      by_cases hx : x.name = n
      · simp [hx, sumTrans, hftr]
      · rw [if_neg hx]
        have := ih n
        simp [sumTrans] at this ⊢
        omega

/-! ### Branch characterizations of the mutation operations -/

lemma SameCore_refl (b : BehaviorFile) : SameCore b b :=
  ⟨rfl, rfl, rfl, rfl, rfl, rfl, rfl, rfl⟩

lemma SameCore.ofShell {b b' : BehaviorFile} (h : SameShell b b') : SameCore b b' :=
  ⟨h.fin, h.smcl, h.blend, h.vvs, h.sdTag, h.gdTag, h.gdVvs, h.gdSd⟩

lemma isFoundIn_true {l : List StateEntry} {s : String} (h : isFoundIn l s = true) :
    ∃ e, lookupLoop l s = .found e := by
  unfold isFoundIn at h
  rcases hl : lookupLoop l s with e | e | _ <;> rw [hl] at h
  · exact ⟨e, rfl⟩
  · cases h
  · cases h

lemma connect_states_eq_assert (b : BehaviorFile) (s ev : String) :
    b.connect_states s s ev = (b, some .assertionError) := by
  unfold BehaviorFile.connect_states
  rw [if_pos rfl]

lemma connect_states_eq_empty (b : BehaviorFile) (s1 s2 ev : String)
    (hne : s1 ≠ s2) (h : (lookupLoop b.list_of_states s2).bound = none) :
    b.connect_states s1 s2 ev = ((b.getOrCreateEventID ev).2, some .nameError) := by
  unfold BehaviorFile.connect_states
  rw [if_neg hne, h]

/-- The mutating branch of connect_states: the source entry bound by the
lookup loop gets one transition appended (event id, destination state id,
the shared blend effect); nothing else changes. -/
lemma connect_states_eq_update (b : BehaviorFile) (s1 s2 ev : String) (st2 : StateEntry)
    (hne : s1 ≠ s2) (h2 : (lookupLoop b.list_of_states s2).bound = some st2) :
    (b.connect_states s1 s2 ev).1.list_of_states =
      updateLoop (connectUpd (b.getOrCreateEventID ev).1 st2.info.stateIdx b.blendTag)
        b.list_of_states s1 ∧
    (b.connect_states s1 s2 ev).2 = none ∧
    (b.connect_states s1 s2 ev).1.wildcardtransitions = b.wildcardtransitions ∧
    (b.connect_states s1 s2 ev).1.object_counter = b.object_counter ∧
    (b.connect_states s1 s2 ev).1.nStates = b.nStates := by
  unfold BehaviorFile.connect_states
  rw [if_neg hne, h2]
  have h := SameShell_goc b ev
  refine ⟨?_, rfl, h.wc, h.counter, h.nst⟩
  simp only [h.list, h.blend]
  rfl

lemma add_wildcard_eq_notfound (b : BehaviorFile) (s ev : String)
    (hf : isFoundIn b.list_of_states s = false) :
    b.add_wildcard s ev = (b, none) := by
  unfold BehaviorFile.add_wildcard
  unfold isFoundIn at hf
  rcases hl : lookupLoop b.list_of_states s with e | e | _ <;> rw [hl] at hf <;>
    first
    | cases hf
    | rfl

/-- The mutating branch of add_wildcard when the wildcard transition
array already exists: one wildcard transition is appended to it. -/
lemma add_wildcard_eq_some (b : BehaviorFile) (s ev : String) (e : StateEntry)
    (w : TransitionArray)
    (hf : lookupLoop b.list_of_states s = .found e)
    (hw : b.wildcardtransitions = some w) :
    (b.add_wildcard s ev).1.list_of_states = b.list_of_states ∧
    (b.add_wildcard s ev).2 = none ∧
    (b.add_wildcard s ev).1.wildcardtransitions =
      some (w.add_transition (b.getOrCreateEventID ev).1 e.info.stateIdx
        (some b.blendTag) none true) ∧
    (b.add_wildcard s ev).1.object_counter = b.object_counter ∧
    (b.add_wildcard s ev).1.nStates = b.nStates := by
  unfold BehaviorFile.add_wildcard BehaviorFile.getOrCreatewildcardtransitions
  rw [hf]
  have h := SameShell_goc b ev
  refine ⟨?_, ?_, ?_, ?_, ?_⟩ <;>
    simp only [h.wc, h.blend, hw] <;>
    first
    | exact h.list
    | rfl
    | exact h.counter
    | exact h.nst

/-- The mutating branch of add_wildcard when the wildcard transition
array does not exist yet: it is created with the next tag and holds the
single new wildcard transition. -/
lemma add_wildcard_eq_none (b : BehaviorFile) (s ev : String) (e : StateEntry)
    (hf : lookupLoop b.list_of_states s = .found e)
    (hw : b.wildcardtransitions = none) :
    (b.add_wildcard s ev).1.list_of_states = b.list_of_states ∧
    (b.add_wildcard s ev).2 = none ∧
    (b.add_wildcard s ev).1.wildcardtransitions =
      some
        { tag := b.object_counter + 1, numTransitions := 1,
          transitions :=
            [{ transition := some b.blendTag, condition := none,
               eventId := (b.getOrCreateEventID ev).1, toStateId := e.info.stateIdx,
               wildcardFlag := true }] } ∧
    (b.add_wildcard s ev).1.object_counter = b.object_counter + 1 ∧
    (b.add_wildcard s ev).1.nStates = b.nStates := by
  unfold BehaviorFile.add_wildcard BehaviorFile.getOrCreatewildcardtransitions
  rw [hf]
  have h := SameShell_goc b ev
  refine ⟨?_, ?_, ?_, ?_, ?_⟩ <;>
    simp only [h.wc, h.blend, h.counter, hw, BehaviorFile._OCnext,
      TransitionArray.add_transition] <;>
    first
    | exact h.list
    | rfl
    | exact h.nst
    | simp

lemma add_clip_trigger_eq_empty (b : BehaviorFile) (s ev : String) (r : Bool) (t : Rat)
    (h : b.list_of_states = []) :
    b.add_clip_trigger s ev r t = (b, some .nameError) := by
  unfold BehaviorFile.add_clip_trigger
  rw [h]
  rfl

lemma add_clip_trigger_eq_gamebryo (b : BehaviorFile) (s ev : String) (r : Bool) (t : Rat)
    (e : StateEntry) (hb : (lookupLoop b.list_of_states s).bound = some e)
    (hg : e.gen.isGamebryo = true) :
    b.add_clip_trigger s ev r t = (b, some .typeError) := by
  unfold BehaviorFile.add_clip_trigger
  rcases hl : lookupLoop b.list_of_states s with e' | e' | _ <;>
    rw [hl] at hb <;> simp [LookupResult.bound] at hb
  · rw [← hb] at hg; simp [hg]
  · rw [← hb] at hg; simp [hg]

lemma add_trigger_tag (c : ClipTriggerArray) (t : Rat) (i : Nat) (r : Bool) :
    (c.add_trigger t i r).tag = c.tag := rfl

/-- The mutating branch of add_clip_trigger when the bound state already
owns a clip trigger array: the trigger is appended to it and the
generator rebound to its (unchanged) tag. -/
lemma add_clip_trigger_eq_some (b : BehaviorFile) (s ev : String) (r : Bool) (t : Rat)
    (e : StateEntry) (c : ClipTriggerArray)
    (hb : (lookupLoop b.list_of_states s).bound = some e)
    (hg : e.gen.isGamebryo = false)
    (hc : e.info.clipTriggerArr = some c) :
    (b.add_clip_trigger s ev r t).1.list_of_states =
      updateLoop (ctaUpd (c.add_trigger t (b.getOrCreateEventID ev).1 r))
        b.list_of_states s ∧
    (b.add_clip_trigger s ev r t).2 = none ∧
    (b.add_clip_trigger s ev r t).1.wildcardtransitions = b.wildcardtransitions ∧
    (b.add_clip_trigger s ev r t).1.object_counter = b.object_counter ∧
    (b.add_clip_trigger s ev r t).1.nStates = b.nStates := by
  unfold BehaviorFile.add_clip_trigger
  rcases hl : lookupLoop b.list_of_states s with e' | e' | _ <;>
    rw [hl] at hb <;> simp [LookupResult.bound] at hb <;> subst hb
  all_goals
    have h := SameShell_goc b ev
    refine ⟨?_, ?_, ?_, ?_, ?_⟩ <;>
      simp only [hg, hc, Bool.false_eq_true, if_false, h.list, h.wc,
        h.counter, h.nst, add_trigger_tag] <;>
      try rfl

/-- The mutating branch of add_clip_trigger when the bound state has no
clip trigger array yet: one is created with the next tag, holding the
single trigger, and the generator is rebound to it. -/
lemma add_clip_trigger_eq_none (b : BehaviorFile) (s ev : String) (r : Bool) (t : Rat)
    (e : StateEntry)
    (hb : (lookupLoop b.list_of_states s).bound = some e)
    (hg : e.gen.isGamebryo = false)
    (hc : e.info.clipTriggerArr = none) :
    (b.add_clip_trigger s ev r t).1.list_of_states =
      updateLoop
        (ctaUpd
          { tag := b.object_counter + 1, num_elements := 1,
            triggers :=
              [{ localTime := t,
                 eventId := (b._OCnext.2.getOrCreateEventID ev).1,
                 relativeToEndOfClip := r }] })
        b.list_of_states s ∧
    (b.add_clip_trigger s ev r t).2 = none ∧
    (b.add_clip_trigger s ev r t).1.wildcardtransitions = b.wildcardtransitions ∧
    (b.add_clip_trigger s ev r t).1.object_counter = b.object_counter + 1 ∧
    (b.add_clip_trigger s ev r t).1.nStates = b.nStates := by
  unfold BehaviorFile.add_clip_trigger
  rcases hl : lookupLoop b.list_of_states s with e' | e' | _ <;>
    rw [hl] at hb <;> simp [LookupResult.bound] at hb <;> subst hb
  all_goals
    have h := SameShell_goc b._OCnext.2 ev
    simp only [BehaviorFile._OCnext] at h
    exact ⟨by simp only [hg, hc, Bool.false_eq_true, if_false, BehaviorFile._OCnext,
             h.list]; rfl,
           by simp only [hg, hc, Bool.false_eq_true, if_false],
           by simp only [hg, hc, Bool.false_eq_true, if_false, BehaviorFile._OCnext,
             h.wc],
           by simp only [hg, hc, Bool.false_eq_true, if_false, BehaviorFile._OCnext,
             h.counter],
           by simp only [hg, hc, Bool.false_eq_true, if_false, BehaviorFile._OCnext,
             h.nst]⟩

lemma add_state_eq_placeholder (b : BehaviorFile) (name pa : String) (lo g : Bool)
    (en ex : Option (List String)) (h : ¬g = true ∧ pa = "placeholder") :
    b.add_state name pa lo g en ex = b := by
  unfold BehaviorFile.add_state
  rw [if_pos h]

lemma add_state_eq_dup (b : BehaviorFile) (name pa : String) (lo g : Bool)
    (en ex : Option (List String)) (h1 : ¬(¬g = true ∧ pa = "placeholder"))
    (h2 : (b.list_of_states.any fun e => e.name = name) = true) :
    b.add_state name pa lo g en ex = b := by
  unfold BehaviorFile.add_state
  rw [if_neg h1, if_pos h2]

/-! ### Counting: one valid operation moves each count by its weight -/

lemma add_transition_num (a : TransitionArray) (i j : Nat) (tr c : Option Nat) (w : Bool) :
    (a.add_transition i j tr c w).numTransitions = a.numTransitions + 1 := rfl

lemma found_ne_nil {l : List StateEntry} {n : String} {e : StateEntry}
    (h : lookupLoop l n = .found e) : l ≠ [] := by
  intro hl
  subst hl
  cases h

lemma wcCount_congr {b b' : BehaviorFile}
    (h : b'.wildcardtransitions = b.wildcardtransitions) : wcCount b' = wcCount b := by
  unfold wcCount
  rw [h]

lemma opsAddState_cons (op : Op) (ops : List Op) :
    opsAddState (op :: ops) = opsAddState [op] + opsAddState ops := by
  cases op <;> simp [opsAddState] <;> omega

lemma opsConnect_cons (op : Op) (ops : List Op) :
    opsConnect (op :: ops) = opsConnect [op] + opsConnect ops := by
  cases op <;> simp [opsConnect] <;> omega

lemma opsWildcard_cons (op : Op) (ops : List Op) :
    opsWildcard (op :: ops) = opsWildcard [op] + opsWildcard ops := by
  cases op <;> simp [opsWildcard] <;> omega

lemma opsConnectFrom_cons (n : String) (op : Op) (ops : List Op) :
    opsConnectFrom n (op :: ops) = opsConnectFrom n [op] + opsConnectFrom n ops := by
  cases op <;> simp [opsConnectFrom] <;> omega

/-- Effect of one valid operation on the four counts the serialized
container exposes: state count, total local transitions, wildcard
transitions, and per-source-state transitions. -/
lemma step_measures {b : BehaviorFile} {op : Op} (h : validOp b op = true) :
    (b.applyOp op).1.list_of_states.length = b.list_of_states.length + opsAddState [op] ∧
    sumTrans (b.applyOp op).1.list_of_states = sumTrans b.list_of_states + opsConnect [op] ∧
    wcCount (b.applyOp op).1 = wcCount b + opsWildcard [op] ∧
    ∀ n, transCount (b.applyOp op).1.list_of_states n =
      transCount b.list_of_states n + opsConnectFrom n [op] := by
  cases op with
  | addState name pa lo g en ex =>
    unfold validOp at h
    rw [Bool.and_eq_true] at h
    obtain ⟨hp, hd⟩ := h
    have h1 : ¬(¬g = true ∧ pa = "placeholder") := by
      rcases Bool.or_eq_true _ _ |>.mp hp with hg | hpa
      · exact fun hh => hh.1 hg
      · intro hh
        rw [Bool.not_eq_true'] at hpa
        simp at hpa
        exact hpa hh.2
    have h2 : ¬(b.list_of_states.any fun e => e.name = name) = true := by
      simp only [Bool.not_eq_true'] at hd
      simp [hd]
    have hl := add_state_register_list b name pa lo g en ex h1 h2
    have hfr := add_state_frame b name pa lo g en ex
    simp only [BehaviorFile.applyOp]
    refine ⟨?_, ?_, ?_, ?_⟩
    · rw [hl]
      simp [opsAddState]
    · rw [hl, sumTrans_append, addStateEntry_numTransitions]
      simp [opsConnect]
    · rw [wcCount_congr hfr.1]
      simp [opsWildcard]
    · intro n
      rw [hl]
      simp only [opsConnectFrom]
      rcases ha : (b.list_of_states.any fun x => x.name = n) with hfalse | htrue
      · rw [transCount_append_fresh _ _ _ ha, transCount_eq_zero_of_not_any ha,
          addStateEntry_numTransitions]
        split <;> rfl
      · rw [transCount_append_stale _ _ _ ha]
        omega
  | connectStates s1 s2 ev =>
    unfold validOp at h
    rw [Bool.and_eq_true] at h
    obtain ⟨h', hf2⟩ := h
    rw [Bool.and_eq_true] at h'
    obtain ⟨hne', hf1⟩ := h'
    have hne : s1 ≠ s2 := by simpa using hne'
    obtain ⟨e1, he1⟩ := isFoundIn_true hf1
    obtain ⟨e2, he2⟩ := isFoundIn_true hf2
    have hb2 : (lookupLoop b.list_of_states s2).bound = some e2 := by
      rw [he2]; rfl
    have CC := connect_states_eq_update b s1 s2 ev e2 hne hb2
    simp only [BehaviorFile.applyOp]
    refine ⟨?_, ?_, ?_, ?_⟩
    · rw [CC.1, updateLoop_length]
      simp [opsAddState]
    · rw [CC.1, sumTrans_updateLoop
        (connectUpd (b.getOrCreateEventID ev).1 e2.info.stateIdx b.blendTag)
        (fun x => add_transition_num _ _ _ _ _ _) _ _ (found_ne_nil he1)]
      simp [opsConnect]
    · rw [wcCount_congr CC.2.2.1]
      simp [opsWildcard]
    · intro n
      rw [CC.1, transCount_updateLoop_found
        (connectUpd (b.getOrCreateEventID ev).1 e2.info.stateIdx b.blendTag)
        (fun x => rfl) _ _ _ he1 n]
      simp only [opsConnectFrom, connectUpd, add_transition_num]
      by_cases hn : n = s1
      · rw [if_pos hn, transCount_of_found _ _ _ (hn ▸ he1)]
        rw [if_pos hn.symm]
      · rw [if_neg hn, if_neg (fun hh => hn hh.symm)]
        omega
  | addWildcard s ev =>
    simp only [validOp] at h
    obtain ⟨e, he⟩ := isFoundIn_true h
    simp only [BehaviorFile.applyOp]
    rcases hw : b.wildcardtransitions with _ | w
    · have W := add_wildcard_eq_none b s ev e he hw
      refine ⟨?_, ?_, ?_, ?_⟩
      · rw [W.1]; simp [opsAddState]
      · rw [W.1]; simp [opsConnect]
      · unfold wcCount
        rw [W.2.2.1, hw]
        simp [opsWildcard]
      · intro n
        rw [W.1]
        simp [opsConnectFrom]
    · have W := add_wildcard_eq_some b s ev e w he hw
      refine ⟨?_, ?_, ?_, ?_⟩
      · rw [W.1]; simp [opsAddState]
      · rw [W.1]; simp [opsConnect]
      · unfold wcCount
        rw [W.2.2.1, hw]
        simp [opsWildcard, add_transition_num]
      · intro n
        rw [W.1]
        simp [opsConnectFrom]
  | addClipTrigger s ev r t =>
    simp only [validOp] at h
    rcases hl : lookupLoop b.list_of_states s with e | e | _ <;> rw [hl] at h
    case lastFallthrough => cases h
    case empty => cases h
    have hg : e.gen.isGamebryo = false := by
      rwa [Bool.not_eq_true'] at h
    have hb : (lookupLoop b.list_of_states s).bound = some e := by
      rw [hl]; rfl
    simp only [BehaviorFile.applyOp]
    rcases hc : e.info.clipTriggerArr with _ | c
    · have C := add_clip_trigger_eq_none b s ev r t e hb hg hc
      refine ⟨?_, ?_, ?_, ?_⟩
      · rw [C.1, updateLoop_length]; simp [opsAddState]
      · rw [C.1, sumTrans_updateLoop_preserve (ctaUpd _) (fun x => rfl)]
        simp [opsConnect]
      · rw [wcCount_congr C.2.2.1]
        simp [opsWildcard]
      · intro n
        rw [C.1, transCount_updateLoop_preserve (ctaUpd _) (fun x => rfl) (fun x => rfl)]
        simp [opsConnectFrom]
    · have C := add_clip_trigger_eq_some b s ev r t e c hb hg hc
      refine ⟨?_, ?_, ?_, ?_⟩
      · rw [C.1, updateLoop_length]; simp [opsAddState]
      · rw [C.1, sumTrans_updateLoop_preserve (ctaUpd _) (fun x => rfl)]
        simp [opsConnect]
      · rw [wcCount_congr C.2.2.1]
        simp [opsWildcard]
      · intro n
        rw [C.1, transCount_updateLoop_preserve (ctaUpd _) (fun x => rfl) (fun x => rfl)]
        simp [opsConnectFrom]

/-- Accumulated effect of a valid operation sequence on the four
counts. -/
lemma runFrom_measures :
    ∀ (ops : List Op) (b : BehaviorFile), validSeq b ops = true →
      (b.runFrom ops).list_of_states.length = b.list_of_states.length + opsAddState ops ∧
      sumTrans (b.runFrom ops).list_of_states = sumTrans b.list_of_states + opsConnect ops ∧
      wcCount (b.runFrom ops) = wcCount b + opsWildcard ops ∧
      ∀ n, transCount (b.runFrom ops).list_of_states n =
        transCount b.list_of_states n + opsConnectFrom n ops := by
  intro ops
  induction ops with
  | nil =>
    intro b _
    exact ⟨by simp [BehaviorFile.runFrom, opsAddState],
      by simp [BehaviorFile.runFrom, opsConnect],
      by simp [BehaviorFile.runFrom, opsWildcard],
      fun n => by simp [BehaviorFile.runFrom, opsConnectFrom]⟩
  | cons op ops ih =>
    intro b hv
    unfold validSeq at hv
    rw [Bool.and_eq_true] at hv
    obtain ⟨h1, h2⟩ := hv
    have S := step_measures h1
    have R := ih (b.applyOp op).1 h2
    refine ⟨?_, ?_, ?_, ?_⟩
    · show (((b.applyOp op).1).runFrom ops).list_of_states.length = _
      have hc := opsAddState_cons op ops
      rw [R.1, S.1]
      omega
    · show sumTrans (((b.applyOp op).1).runFrom ops).list_of_states = _
      have hc := opsConnect_cons op ops
      rw [R.2.1, S.2.1]
      omega
    · show wcCount (((b.applyOp op).1).runFrom ops) = _
      have hc := opsWildcard_cons op ops
      rw [R.2.2.1, S.2.2.1]
      omega
    · intro n
      show transCount (((b.applyOp op).1).runFrom ops).list_of_states n = _
      have hc := opsConnectFrom_cons n op ops
      rw [R.2.2.2 n, S.2.2.2 n]
      omega

/-! ### Unconditional frame of one operation: core fields and names -/

lemma isFoundIn_false_of_last {l : List StateEntry} {n : String} {e : StateEntry}
    (h : lookupLoop l n = .lastFallthrough e) : isFoundIn l n = false := by
  unfold isFoundIn
  rw [h]

lemma isFoundIn_false_of_empty {l : List StateEntry} {n : String}
    (h : lookupLoop l n = .empty) : isFoundIn l n = false := by
  unfold isFoundIn
  rw [h]

/-- No branch of connect_states touches the core fields. -/
lemma connect_states_core (b : BehaviorFile) (s1 s2 ev : String) :
    SameCore b (b.connect_states s1 s2 ev).1 := by
  unfold BehaviorFile.connect_states
  by_cases hne : s1 = s2
  · rw [if_pos hne]
    exact SameCore_refl b
  · rw [if_neg hne]
    have h := SameShell_goc b ev
    rcases hb : (lookupLoop b.list_of_states s2).bound with _ | st2 <;>
      exact ⟨h.fin, h.smcl, h.blend, h.vvs, h.sdTag, h.gdTag, h.gdVvs, h.gdSd⟩

/-- No branch of add_wildcard touches the core fields. -/
lemma add_wildcard_core (b : BehaviorFile) (s ev : String) :
    SameCore b (b.add_wildcard s ev).1 := by
  unfold BehaviorFile.add_wildcard BehaviorFile.getOrCreatewildcardtransitions
  rcases hl : lookupLoop b.list_of_states s with e | e | _
  · have h := SameShell_goc b ev
    rcases hw : b.wildcardtransitions with _ | w <;>
      simp only [h.wc, hw] <;>
      exact ⟨h.fin, h.smcl, h.blend, h.vvs, h.sdTag, h.gdTag, h.gdVvs, h.gdSd⟩
  · exact SameCore_refl b
  · exact SameCore_refl b

/-- No branch of add_clip_trigger touches the core fields. -/
lemma add_clip_trigger_core (b : BehaviorFile) (s ev : String) (r : Bool) (t : Rat) :
    SameCore b (b.add_clip_trigger s ev r t).1 := by
  unfold BehaviorFile.add_clip_trigger
  rcases hl : lookupLoop b.list_of_states s with e | e | _
  · by_cases hg : e.gen.isGamebryo = true
    · simp only [hg, if_true]
      exact SameCore_refl b
    · rw [Bool.not_eq_true] at hg
      rcases hc : e.info.clipTriggerArr with _ | c <;>
        simp only [hg, Bool.false_eq_true, if_false, hc]
      · have h := SameShell_goc b._OCnext.2 ev
        exact ⟨h.fin, h.smcl, h.blend, h.vvs, h.sdTag, h.gdTag, h.gdVvs, h.gdSd⟩
      · have h := SameShell_goc b ev
        exact ⟨h.fin, h.smcl, h.blend, h.vvs, h.sdTag, h.gdTag, h.gdVvs, h.gdSd⟩
  · by_cases hg : e.gen.isGamebryo = true
    · simp only [hg, if_true]
      exact SameCore_refl b
    · rw [Bool.not_eq_true] at hg
      rcases hc : e.info.clipTriggerArr with _ | c <;>
        simp only [hg, Bool.false_eq_true, if_false, hc]
      · have h := SameShell_goc b._OCnext.2 ev
        exact ⟨h.fin, h.smcl, h.blend, h.vvs, h.sdTag, h.gdTag, h.gdVvs, h.gdSd⟩
      · have h := SameShell_goc b ev
        exact ⟨h.fin, h.smcl, h.blend, h.vvs, h.sdTag, h.gdTag, h.gdVvs, h.gdSd⟩
  · exact SameCore_refl b

/-- Any single operation preserves the core fields, and either leaves
the name list unchanged or appends one fresh name. -/
lemma applyOp_core (b : BehaviorFile) (op : Op) :
    SameCore b (b.applyOp op).1 ∧
    ((b.applyOp op).1.list_of_states.map (·.name) = b.list_of_states.map (·.name) ∨
      ∃ nm, (b.applyOp op).1.list_of_states.map (·.name) =
          b.list_of_states.map (·.name) ++ [nm] ∧
        (b.list_of_states.any fun e => e.name = nm) = false) := by
  cases op with
  | addState name pa lo g en ex =>
    simp only [BehaviorFile.applyOp]
    by_cases h1 : ¬g = true ∧ pa = "placeholder"
    · rw [add_state_eq_placeholder b name pa lo g en ex h1]
      exact ⟨SameCore_refl b, Or.inl rfl⟩
    by_cases h2 : (b.list_of_states.any fun e => e.name = name) = true
    · rw [add_state_eq_dup b name pa lo g en ex h1 h2]
      exact ⟨SameCore_refl b, Or.inl rfl⟩
    · obtain ⟨hwc, hfin, hsmcl, hblend, hvvs, hsd, hgd, hgdv, hgds, hcnt⟩ :=
        add_state_frame b name pa lo g en ex
      have hl := add_state_register_list b name pa lo g en ex h1 h2
      refine ⟨⟨hfin, hsmcl, hblend, hvvs, hsd, hgd, hgdv, hgds⟩,
        Or.inr ⟨name, ?_, ?_⟩⟩
      · rw [hl]
        simp [addStateEntry_name]
      · rw [Bool.not_eq_true] at h2
        exact h2
  | connectStates s1 s2 ev =>
    simp only [BehaviorFile.applyOp]
    refine ⟨connect_states_core b s1 s2 ev, ?_⟩
    by_cases hne : s1 = s2
    · subst hne
      rw [connect_states_eq_assert]
      exact Or.inl rfl
    rcases hb : (lookupLoop b.list_of_states s2).bound with _ | st2
    · rw [connect_states_eq_empty b s1 s2 ev hne hb]
      exact Or.inl (by rw [(SameShell_goc b ev).list])
    · have CC := connect_states_eq_update b s1 s2 ev st2 hne hb
      exact Or.inl (by
        rw [CC.1, updateLoop_map_name
          (connectUpd (b.getOrCreateEventID ev).1 st2.info.stateIdx b.blendTag)
          (fun x => rfl)])
  | addWildcard s ev =>
    simp only [BehaviorFile.applyOp]
    refine ⟨add_wildcard_core b s ev, ?_⟩
    rcases hl : lookupLoop b.list_of_states s with e | e | _
    · rcases hw : b.wildcardtransitions with _ | w
      · exact Or.inl (by rw [(add_wildcard_eq_none b s ev e hl hw).1])
      · exact Or.inl (by rw [(add_wildcard_eq_some b s ev e w hl hw).1])
    · rw [add_wildcard_eq_notfound b s ev (isFoundIn_false_of_last hl)]
      exact Or.inl rfl
    · rw [add_wildcard_eq_notfound b s ev (isFoundIn_false_of_empty hl)]
      exact Or.inl rfl
  | addClipTrigger s ev r t =>
    simp only [BehaviorFile.applyOp]
    refine ⟨add_clip_trigger_core b s ev r t, ?_⟩
    rcases hl : lookupLoop b.list_of_states s with e | e | _
    case empty =>
      have hnil : b.list_of_states = [] := by
        rw [← lookupLoop_bound_none b.list_of_states s, hl]
        rfl
      rw [add_clip_trigger_eq_empty b s ev r t hnil]
      exact Or.inl rfl
    all_goals
      have hb : (lookupLoop b.list_of_states s).bound = some e := by rw [hl]; rfl
      by_cases hg : e.gen.isGamebryo = true
      · rw [add_clip_trigger_eq_gamebryo b s ev r t e hb hg]
        exact Or.inl rfl
      · rw [Bool.not_eq_true] at hg
        rcases hc : e.info.clipTriggerArr with _ | c
        · exact Or.inl (by
            rw [(add_clip_trigger_eq_none b s ev r t e hb hg hc).1,
              updateLoop_map_name
                (ctaUpd
                  { tag := b.object_counter + 1, num_elements := 1,
                    triggers :=
                      [{ localTime := t,
                         eventId := (b._OCnext.2.getOrCreateEventID ev).1,
                         relativeToEndOfClip := r }] })
                (fun x => rfl)])
        · exact Or.inl (by
            rw [(add_clip_trigger_eq_some b s ev r t e c hb hg hc).1,
              updateLoop_map_name (ctaUpd (c.add_trigger t (b.getOrCreateEventID ev).1 r))
                (fun x => rfl)])

/-- A whole run of operations preserves the core fields. -/
lemma runFrom_core :
    ∀ (ops : List Op) (b : BehaviorFile), SameCore b (b.runFrom ops) := by
  intro ops
  induction ops with
  | nil => intro b; exact SameCore_refl b
  | cons op ops ih =>
    intro b
    simp only [BehaviorFile.runFrom]
    have h1 := (applyOp_core b op).1
    have h2 := ih (b.applyOp op).1
    exact ⟨h2.fin.trans h1.fin, h2.smcl.trans h1.smcl, h2.blend.trans h1.blend,
      h2.vvs.trans h1.vvs, h2.sdTag.trans h1.sdTag, h2.gdTag.trans h1.gdTag,
      h2.gdVvs.trans h1.gdVvs, h2.gdSd.trans h1.gdSd⟩

/-- State names stay pairwise distinct under any run (add_state refuses
duplicates and no other operation renames an entry). -/
lemma runFrom_namesNodup :
    ∀ (ops : List Op) (b : BehaviorFile),
      (b.list_of_states.map (·.name)).Nodup →
      ((b.runFrom ops).list_of_states.map (·.name)).Nodup := by
  intro ops
  induction ops with
  | nil => intro b h; exact h
  | cons op ops ih =>
    intro b h
    simp only [BehaviorFile.runFrom]
    refine ih (b.applyOp op).1 ?_
    rcases (applyOp_core b op).2 with heq | ⟨nm, heq, hfresh⟩
    · rwa [heq]
    · rw [heq]
      have hnm : nm ∉ b.list_of_states.map (·.name) := by
        intro hmem
        rw [List.mem_map] at hmem
        obtain ⟨e2, he2, hname⟩ := hmem
        rw [List.any_eq_false] at hfresh
        exact hfresh e2 he2 (by simp [hname])
      simp [List.nodup_append, h, hnm]

/-- With pairwise distinct names, the first-match transition count of a
member entry is that entry's own count. -/
lemma transCount_mem_nodup :
    ∀ (l : List StateEntry), (l.map (·.name)).Nodup →
      ∀ e ∈ l, transCount l e.name = e.transitions.numTransitions := by
  intro l
  induction l with
  | nil => intro _ e he; cases he
  | cons x xs ih =>
    intro h e he
    rw [List.map_cons, List.nodup_cons] at h
    rcases List.mem_cons.mp he with he1 | he2
    · subst he1
      unfold transCount
      rw [if_pos rfl]
    · have hne : ¬ x.name = e.name := by
        intro hx
        exact h.1 (hx ▸ List.mem_map_of_mem (·.name) he2)
      unfold transCount
      rw [if_neg hne]
      exact ih h.2 e he2

/-! ### Finalize bookkeeping -/

lemma smFold_spec :
    ∀ (l : List StateEntry) (cl : List Nat) (n : Nat) (t : List Nat),
      (smFold l (cl, n, t)).1 = cl ++ l.map (fun e => e.info.tag) ∧
      (smFold l (cl, n, t)).2.1 = n + l.length ∧
      (smFold l (cl, n, t)).2.2 =
        if l.isEmpty then t else cl ++ l.map (fun e => e.info.tag) := by
  intro l
  induction l with
  | nil =>
    intro cl n t
    exact ⟨by simp [smFold], by simp [smFold], by simp [smFold]⟩
  | cons x xs ih =>
    intro cl n t
    unfold smFold
    obtain ⟨i1, i2, i3⟩ := ih (cl ++ [x.info.tag]) (n + 1) (cl ++ [x.info.tag])
    refine ⟨by rw [i1]; simp, by rw [i2]; simp; omega, ?_⟩
    rw [i3]
    cases xs with
    | nil => simp
    | cons y ys => simp

/-- What one __finalize run does: only the counter (two allocations), the
class-level state machine list and the appended top-level record
change. -/
lemma finalize_spec (b : BehaviorFile) :
    b.finalize.list_of_states = b.list_of_states ∧
    b.finalize.wildcardtransitions = b.wildcardtransitions ∧
    b.finalize.object_counter = b.object_counter + 2 ∧
    b.finalize.nStates = b.nStates ∧
    b.finalize.stringData = b.stringData ∧
    b.finalize.graphData = b.graphData ∧
    b.finalize.blendTag = b.blendTag ∧
    b.finalize.vvsTag = b.vvsTag ∧
    b.finalize.smClassList = (smFold b.list_of_states (b.smClassList, 0, [])).1 ∧
    b.finalize.finals = b.finals ++
      [{ sm := { tag := b.object_counter + 1,
                 numElems := (smFold b.list_of_states (b.smClassList, 0, [])).2.1,
                 statesText := (smFold b.list_of_states (b.smClassList, 0, [])).2.2,
                 wildcardRef := b.wildcardtransitions.map (·.tag), startStateId := 0 },
         graphTag := b.object_counter + 2, rootGeneratorRef := b.object_counter + 1,
         dataRef := b.graphData.tag, containerVariant := b.object_counter + 2 }] := by
  refine ⟨rfl, rfl, rfl, rfl, rfl, rfl, rfl, rfl, rfl, rfl⟩

/-- C6.  For a graph built by a sequence of valid builder operations
(each add_state registers a fresh state, each connect_states joins two
distinct existing states, each add_wildcard and each add_clip_trigger
targets an existing suitable state), the finalized file holds exactly one
top-level state machine whose states numelements equals the number of
add_state calls; every state's transition array numelements equals the
number of connect_states calls naming it as source; these sum to the
total number of connect_states calls; and the wildcard array numelements
equals the number of add_wildcard calls. -/
theorem serialized_counts_match_build (ops : List Op)
    (h : validSeq BehaviorFile.init ops = true) :
    ((runOps ops).finalize.finals.map fun f => f.sm.numElems) = [opsAddState ops] ∧
    (∀ e ∈ (runOps ops).finalize.list_of_states,
      e.transitions.numTransitions = opsConnectFrom e.name ops) ∧
    sumTrans (runOps ops).finalize.list_of_states = opsConnect ops ∧
    wcCount (runOps ops).finalize = opsWildcard ops := by
  unfold runOps
  obtain ⟨hlen, hsum, hwc, htc⟩ := runFrom_measures ops BehaviorFile.init h
  have F := finalize_spec (BehaviorFile.init.runFrom ops)
  have hfin0 : (BehaviorFile.init.runFrom ops).finals = [] :=
    (runFrom_core ops BehaviorFile.init).fin
  refine ⟨?_, ?_, ?_, ?_⟩
  · rw [F.2.2.2.2.2.2.2.2.2, hfin0]
    simp only [List.nil_append, List.map_cons, List.map_nil]
    rw [(smFold_spec (BehaviorFile.init.runFrom ops).list_of_states
      (BehaviorFile.init.runFrom ops).smClassList 0 []).2.1, hlen]
    simp [BehaviorFile.init]
  · intro e he
    rw [F.1] at he
    have hnodup := runFrom_namesNodup ops BehaviorFile.init (by simp [BehaviorFile.init])
    have hmem := transCount_mem_nodup _ hnodup e he
    rw [← hmem, htc e.name]
    simp [BehaviorFile.init, transCount]
  · rw [F.1, hsum]
    simp [BehaviorFile.init, sumTrans]
  · rw [wcCount_congr F.2.1, hwc]
    simp [BehaviorFile.init, wcCount]

/-- The round-trip scenario is a valid sequence and C6 holds on it. -/
theorem serialized_counts_match_build_witness :
    validSeq BehaviorFile.init c6Scenario = true ∧
    (((runOps c6Scenario).finalize.finals.map fun f => f.sm.numElems) =
        [opsAddState c6Scenario] ∧
      (∀ e ∈ (runOps c6Scenario).finalize.list_of_states,
        e.transitions.numTransitions = opsConnectFrom e.name c6Scenario) ∧
      sumTrans (runOps c6Scenario).finalize.list_of_states = opsConnect c6Scenario ∧
      wcCount (runOps c6Scenario).finalize = opsWildcard c6Scenario) :=
  ⟨by decide, serialized_counts_match_build c6Scenario (by decide)⟩

/-! ### Class attribute counting in the data section -/

lemma countClass_append (c : String) (l1 l2 : List EmittedObj) :
    countClass c (l1 ++ l2) = countClass c l1 + countClass c l2 := by
  simp [countClass, List.filter_append]

lemma countClass_singleton_ne (c cls2 : String) (tg : Nat) (rs : List Nat)
    (h : ¬cls2 = c) :
    countClass c [{ tag := tg, cls := cls2, refs := rs }] = 0 := by
  simp [countClass, List.filter_cons, h]

lemma countClass_epa (c : String) (x : Option EventPropArray)
    (h : ¬"hkbStateMachineEventPropertyArray" = c) : countClass c (epaObjs x) = 0 := by
  rcases x with _ | p <;> simp [epaObjs, countClass, List.filter_cons, h]

lemma countClass_cta (c : String) (x : Option ClipTriggerArray)
    (h : ¬"hkbClipTriggerArray" = c) : countClass c (ctaObjs x) = 0 := by
  rcases x with _ | p <;> simp [ctaObjs, countClass, List.filter_cons, h]

lemma countClass_wc (c : String) (x : Option TransitionArray)
    (h : ¬"hkbStateMachineTransitionInfoArray" = c) : countClass c (wcObjs x) = 0 := by
  rcases x with _ | w <;> simp [wcObjs, countClass, List.filter_cons, h]

lemma countClass_pair (c : String) (e : StateEntry)
    (h1 : ¬"hkbStateMachineTransitionInfoArray" = c)
    (h2 : ¬"hkbClipGenerator" = c) (h3 : ¬"BGSGamebryoSequenceGenerator" = c) :
    countClass c
      [{ tag := e.transitions.tag, cls := "hkbStateMachineTransitionInfoArray",
         refs := e.transitions.refList }, e.gen.obj] = 0 := by
  cases g : e.gen <;> simp [countClass, Gen.obj, g, List.filter_cons, h1, h2, h3]

lemma countClass_stateObjs (c : String) (e : StateEntry)
    (h1 : ¬"hkbStateMachineTransitionInfoArray" = c)
    (h2 : ¬"hkbClipGenerator" = c)
    (h3 : ¬"BGSGamebryoSequenceGenerator" = c)
    (h4 : ¬"hkbStateMachineEventPropertyArray" = c)
    (h5 : ¬"hkbStateMachineStateInfo" = c)
    (h6 : ¬"hkbClipTriggerArray" = c) :
    countClass c (StateEntry.objs e) = 0 := by
  unfold StateEntry.objs
  rw [countClass_append, countClass_append, countClass_append, countClass_append,
    countClass_pair c e h1 h2 h3, countClass_epa c _ h4, countClass_epa c _ h4,
    countClass_singleton_ne _ _ _ _ h5, countClass_cta c _ h6]

lemma countClass_states (c : String) (l : List StateEntry)
    (h1 : ¬"hkbStateMachineTransitionInfoArray" = c)
    (h2 : ¬"hkbClipGenerator" = c)
    (h3 : ¬"BGSGamebryoSequenceGenerator" = c)
    (h4 : ¬"hkbStateMachineEventPropertyArray" = c)
    (h5 : ¬"hkbStateMachineStateInfo" = c)
    (h6 : ¬"hkbClipTriggerArray" = c) :
    countClass c (l.flatMap StateEntry.objs) = 0 := by
  induction l with
  | nil => rfl
  | cons e es ih =>
    rw [List.flatMap_cons, countClass_append, ih,
      countClass_stateObjs c e h1 h2 h3 h4 h5 h6]

lemma countClass_base (c : String) (b : BehaviorFile)
    (k1 : ¬"hkbBehaviorGraphStringData" = c) (k2 : ¬"hkbVariableValueSet" = c)
    (k3 : ¬"hkbBehaviorGraphData" = c) (k4 : ¬"hkbBlendingTransitionEffect" = c) :
    countClass c
      [{ tag := b.stringData.tag, cls := "hkbBehaviorGraphStringData", refs := [] },
       { tag := b.vvsTag, cls := "hkbVariableValueSet", refs := [] },
       { tag := b.graphData.tag, cls := "hkbBehaviorGraphData",
         refs := [b.graphData.variableInitialValues, b.graphData.stringDataRef] },
       { tag := b.blendTag, cls := "hkbBlendingTransitionEffect", refs := [] }] = 0 := by
  simp [countClass, List.filter_cons, k1, k2, k3, k4]

lemma countClass_final_objs (f : FinalRecord) :
    countClass "hkbStateMachine" (FinalRecord.objs f) = 1 ∧
    countClass "hkbBehaviorGraph" (FinalRecord.objs f) = 1 ∧
    countClass "hkRootLevelContainer" (FinalRecord.objs f) = 1 := by
  refine ⟨?_, ?_, ?_⟩ <;> simp [countClass, FinalRecord.objs, List.filter_cons]

lemma countClass_sm_finals (fs : List FinalRecord) :
    countClass "hkbStateMachine" (fs.flatMap FinalRecord.objs) = fs.length := by
  induction fs with
  | nil => rfl
  | cons f fs ih =>
    rw [List.flatMap_cons, countClass_append, ih, (countClass_final_objs f).1]
    simp [Nat.add_comm]

lemma countClass_bg_finals (fs : List FinalRecord) :
    countClass "hkbBehaviorGraph" (fs.flatMap FinalRecord.objs) = fs.length := by
  induction fs with
  | nil => rfl
  | cons f fs ih =>
    rw [List.flatMap_cons, countClass_append, ih, (countClass_final_objs f).2.1]
    simp [Nat.add_comm]

lemma countClass_rlc_finals (fs : List FinalRecord) :
    countClass "hkRootLevelContainer" (fs.flatMap FinalRecord.objs) = fs.length := by
  induction fs with
  | nil => rfl
  | cons f fs ih =>
    rw [List.flatMap_cons, countClass_append, ih, (countClass_final_objs f).2.2]
    simp [Nat.add_comm]

/-- The three top-level classes are emitted exactly once per accumulated
finalize record: no other part of the data section uses them. -/
lemma countClass_toplevel (b : BehaviorFile) :
    countClass "hkbStateMachine" (dataObjects b) = b.finals.length ∧
    countClass "hkbBehaviorGraph" (dataObjects b) = b.finals.length ∧
    countClass "hkRootLevelContainer" (dataObjects b) = b.finals.length := by
  refine ⟨?_, ?_, ?_⟩ <;>
    simp only [dataObjects] <;>
    rw [countClass_append, countClass_append, countClass_append,
      countClass_base _ b (by decide) (by decide) (by decide) (by decide),
      countClass_states _ _ (by decide) (by decide) (by decide) (by decide)
        (by decide) (by decide),
      countClass_wc _ _ (by decide)] <;>
    first
      | (rw [countClass_sm_finals]; omega)
      | (rw [countClass_bg_finals]; omega)
      | (rw [countClass_rlc_finals]; omega)

/-- C4 (amended).  export's finalization is not idempotent: after any
sequence of builder operations, one finalize pass emits exactly one
hkbStateMachine, one hkbBehaviorGraph and one hkRootLevelContainer into
the data section, but a second finalize pass appends a second complete
set of top-level objects instead of leaving the document unchanged. -/
theorem finalize_once_unique_twice_duplicated (ops : List Op) :
    countClass "hkbStateMachine" (dataObjects (runOps ops).finalize) = 1 ∧
    countClass "hkbBehaviorGraph" (dataObjects (runOps ops).finalize) = 1 ∧
    countClass "hkRootLevelContainer" (dataObjects (runOps ops).finalize) = 1 ∧
    countClass "hkbStateMachine" (dataObjects (runOps ops).finalize.finalize) = 2 ∧
    countClass "hkbBehaviorGraph" (dataObjects (runOps ops).finalize.finalize) = 2 ∧
    countClass "hkRootLevelContainer" (dataObjects (runOps ops).finalize.finalize) = 2 := by
  have hfin : (runOps ops).finals = [] := (runFrom_core ops BehaviorFile.init).fin
  have h1 := countClass_toplevel (runOps ops).finalize
  have h2 := countClass_toplevel (runOps ops).finalize.finalize
  have e1 : (runOps ops).finalize.finals.length = 1 := by
    rw [(finalize_spec (runOps ops)).2.2.2.2.2.2.2.2.2, hfin]
    rfl
  have e2 : (runOps ops).finalize.finalize.finals.length = 2 := by
    rw [(finalize_spec (runOps ops).finalize).2.2.2.2.2.2.2.2.2,
      (finalize_spec (runOps ops)).2.2.2.2.2.2.2.2.2, hfin]
    rfl
  exact ⟨h1.1.trans e1, h1.2.1.trans e1, h1.2.2.trans e1,
    h2.1.trans e2, h2.2.1.trans e2, h2.2.2.trans e2⟩

/-! ### The allocation invariant -/

lemma allTags_decomp (b : BehaviorFile) (hfin : b.finals = []) :
    allTags b =
      [b.stringData.tag, b.vvsTag, b.graphData.tag, b.blendTag] ++
        b.list_of_states.flatMap entryTags ++
        (wcObjs b.wildcardtransitions).map (·.tag) := by
  unfold allTags dataObjects entryTags
  rw [hfin]
  simp [List.map_flatMap]

lemma allRefs_decomp (b : BehaviorFile) (hfin : b.finals = []) :
    allRefs b =
      [b.graphData.variableInitialValues, b.graphData.stringDataRef] ++
        b.list_of_states.flatMap entryRefs ++
        (wcObjs b.wildcardtransitions).flatMap (·.refs) := by
  unfold allRefs dataObjects entryRefs
  rw [hfin]
  simp [List.flatMap_assoc]

lemma refList_add_transition (a : TransitionArray) (i j : Nat) (tr c : Option Nat)
    (w : Bool) :
    (a.add_transition i j tr c w).refList = a.refList ++ (optRef tr ++ optRef c) := by
  unfold TransitionArray.add_transition TransitionArray.refList
  simp

lemma entryTags_connectUpd (i j bl : Nat) (e : StateEntry) :
    entryTags (connectUpd i j bl e) = entryTags e := rfl

lemma entryRefs_connectUpd (i j bl : Nat) (e : StateEntry) :
    ∀ r ∈ entryRefs (connectUpd i j bl e), r ∈ entryRefs e ∨ r = bl := by
  intro r hr
  unfold entryRefs StateEntry.objs connectUpd at hr
  unfold entryRefs StateEntry.objs
  simp only [List.flatMap_append, List.flatMap_cons, List.flatMap_nil, List.mem_append,
    refList_add_transition, optRef, List.append_nil, List.append_assoc,
    List.mem_singleton] at hr ⊢
  tauto

lemma ctaTag_mem {e : StateEntry} {c : ClipTriggerArray}
    (hc : e.info.clipTriggerArr = some c) : c.tag ∈ entryTags e := by
  unfold entryTags StateEntry.objs
  simp [hc, ctaObjs]

lemma infoTag_mem (e : StateEntry) : e.info.tag ∈ entryTags e := by
  unfold entryTags StateEntry.objs
  simp

lemma entryTags_ctaUpd_some (cta : ClipTriggerArray) (e : StateEntry)
    (c : ClipTriggerArray) (hc : e.info.clipTriggerArr = some c) (ht : cta.tag = c.tag) :
    entryTags (ctaUpd cta e) = entryTags e := by
  unfold entryTags StateEntry.objs ctaUpd
  cases g : e.gen <;> simp [hc, ht, ctaObjs, Gen.set_trigger, Gen.obj, g]

lemma entryTags_ctaUpd_none (cta : ClipTriggerArray) (e : StateEntry)
    (hc : e.info.clipTriggerArr = none) :
    entryTags (ctaUpd cta e) = entryTags e ++ [cta.tag] := by
  unfold entryTags StateEntry.objs ctaUpd
  cases g : e.gen <;> simp [hc, ctaObjs, Gen.set_trigger, Gen.obj, g]

lemma entryRefs_ctaUpd (cta : ClipTriggerArray) (e : StateEntry) :
    ∀ r ∈ entryRefs (ctaUpd cta e), r ∈ entryRefs e ∨ r = cta.tag := by
  intro r hr
  unfold entryRefs StateEntry.objs ctaUpd at hr
  unfold entryRefs StateEntry.objs
  cases g : e.gen <;>
    simp only [g, Gen.set_trigger, Gen.obj, ctaObjs, List.flatMap_append,
      List.flatMap_cons, List.flatMap_nil, List.mem_append, List.append_nil,
      List.append_assoc, optRef, List.mem_singleton] at hr ⊢ <;>
    rcases hcta : e.info.clipTriggerArr with _ | c0 <;>
      simp only [hcta, ctaObjs, List.flatMap_cons, List.flatMap_nil, List.mem_append,
        List.append_nil] at hr ⊢ <;>
      tauto

lemma updateLoop_flatMap_congr (g : StateEntry → List Nat) (f : StateEntry → StateEntry)
    (hf : ∀ x, g (f x) = g x) :
    ∀ (l : List StateEntry) (n : String),
      (updateLoop f l n).flatMap g = l.flatMap g := by
  intro l
  induction l with
  | nil => intro n; rfl
  | cons x xs ih =>
    intro n
    cases xs with
    | nil => unfold updateLoop; by_cases hx : x.name = n <;> simp [hx, hf]
    | cons y ys =>
      unfold updateLoop
      by_cases hx : x.name = n <;> simp [hx, hf, ih]

lemma nodup_of_count_split {new old fresh : List Nat}
    (hcount : ∀ t, new.count t = old.count t + fresh.count t)
    (hold : old.Nodup) (hfresh : fresh.Nodup)
    (hdisj : ∀ t ∈ fresh, t ∉ old) : new.Nodup := by
  rw [List.nodup_iff_count_le_one] at hold hfresh ⊢
  intro t
  rw [hcount t]
  by_cases ht : t ∈ fresh
  · have h0 : old.count t = 0 := by
      rw [List.count_eq_zero]
      exact hdisj t ht
    have := hfresh t
    omega
  · have h0 : fresh.count t = 0 := by
      rw [List.count_eq_zero]
      exact ht
    have := hold t
    omega

lemma mem_of_count_split {new old fresh : List Nat}
    (hcount : ∀ t, new.count t = old.count t + fresh.count t) :
    ∀ t, t ∈ new ↔ (t ∈ old ∨ t ∈ fresh) := by
  intro t
  have h := hcount t
  rw [← List.count_pos_iff, ← List.count_pos_iff, ← List.count_pos_iff]
  omega

/-- One step of the allocation invariant: a branch that adds the fresh
tags `fresh` (all above the old counter, at most the new counter),
changes no other tag, and only adds references resolving to old tags,
old references or the fresh tags, preserves the invariant. -/
lemma Inv.step {b b' : BehaviorFile} (I : Inv b) (fresh : List Nat)
    (hcount : ∀ t, (allTags b').count t = (allTags b).count t + fresh.count t)
    (hfreshN : fresh.Nodup)
    (hfreshLo : ∀ t ∈ fresh, b.object_counter < t)
    (hfreshHi : ∀ t ∈ fresh, t ≤ b'.object_counter)
    (hcnt : b.object_counter ≤ b'.object_counter)
    (hrefs : ∀ r ∈ allRefs b', r ∈ allRefs b ∨ r ∈ allTags b ∨ r ∈ fresh)
    (hfin : b'.finals = []) : Inv b' := by
  have hdisj : ∀ t ∈ fresh, t ∉ allTags b := by
    intro t ht hmem
    have := I.ub t hmem
    have := hfreshLo t ht
    omega
  have hmem := mem_of_count_split hcount
  refine ⟨nodup_of_count_split hcount I.nodup hfreshN hdisj, ?_, ?_, ?_, ?_, hfin⟩
  · intro t ht
    rcases (hmem t).mp ht with h | h
    · exact I.lb t h
    · have := hfreshLo t h
      have := I.cnt
      omega
  · intro t ht
    rcases (hmem t).mp ht with h | h
    · have := I.ub t h
      omega
    · exact hfreshHi t h
  · intro r hr
    rcases hrefs r hr with h | h | h
    · exact (hmem r).mpr (Or.inl (I.refsub r h))
    · exact (hmem r).mpr (Or.inl h)
    · exact (hmem r).mpr (Or.inr h)
  · have := I.cnt
    omega

/-- A branch that emits the same objects and keeps the counter preserves
the invariant. -/
lemma Inv.congr {b b' : BehaviorFile} (I : Inv b) (hd : dataObjects b' = dataObjects b)
    (hc : b'.object_counter = b.object_counter) (hfin : b'.finals = []) : Inv b' := by
  have ht : allTags b' = allTags b := by unfold allTags; rw [hd]
  have hr : allRefs b' = allRefs b := by unfold allRefs; rw [hd]
  refine ⟨by rw [ht]; exact I.nodup, by rw [ht]; exact I.lb, by rw [ht, hc]; exact I.ub,
    by rw [hr, ht]; exact I.refsub, by rw [hc]; exact I.cnt, hfin⟩

/-- The emitted objects only depend on the fields a SameShell relation
fixes. -/
lemma dataObjects_congr {b b' : BehaviorFile} (h : SameShell b b') :
    dataObjects b' = dataObjects b := by
  unfold dataObjects
  rw [h.sdTag, h.vvs, h.gdTag, h.gdVvs, h.gdSd, h.blend, h.list, h.wc, h.fin]

lemma mem_allTags (b : BehaviorFile) (hfin : b.finals = []) (t : Nat) :
    t ∈ allTags b ↔
      (t ∈ [b.stringData.tag, b.vvsTag, b.graphData.tag, b.blendTag] ∨
       t ∈ b.list_of_states.flatMap entryTags ∨
       t ∈ (wcObjs b.wildcardtransitions).map (·.tag)) := by
  rw [allTags_decomp b hfin]
  simp [List.mem_append, or_assoc]

lemma mem_allRefs (b : BehaviorFile) (hfin : b.finals = []) (r : Nat) :
    r ∈ allRefs b ↔
      (r ∈ [b.graphData.variableInitialValues, b.graphData.stringDataRef] ∨
       r ∈ b.list_of_states.flatMap entryRefs ∨
       r ∈ (wcObjs b.wildcardtransitions).flatMap (·.refs)) := by
  rw [allRefs_decomp b hfin]
  simp [List.mem_append, or_assoc]

/-- add_state preserves the allocation invariant: the registering branch
appends a block of pairwise distinct fresh tags whose references point
into the block itself. -/
lemma inv_add_state (b : BehaviorFile) (name pa : String) (lo g : Bool)
    (en ex : Option (List String)) (I : Inv b) :
    Inv (b.add_state name pa lo g en ex) := by
  by_cases h1 : ¬g = true ∧ pa = "placeholder"
  · rw [add_state_eq_placeholder b name pa lo g en ex h1]
    exact I
  by_cases h2 : (b.list_of_states.any fun e => e.name = name) = true
  · rw [add_state_eq_dup b name pa lo g en ex h1 h2]
    exact I
  obtain ⟨hwc, hfin, hsmcl, hblend, hvvs, hsd, hgd, hgdv, hgds, hcnt⟩ :=
    add_state_frame b name pa lo g en ex
  have hlist := add_state_register_list b name pa lo g en ex h1 h2
  have hctr := add_state_register_counter b name pa lo g en ex h1 h2
  obtain ⟨htN, htB⟩ := addStateEntry_tags b name pa lo g en ex
  have hrefs0 := addStateEntry_refs b name pa lo g en ex
  have hfin' : (b.add_state name pa lo g en ex).finals = [] := hfin.trans I.fin
  have hT' := allTags_decomp _ hfin'
  rw [hsd, hvvs, hgd, hblend, hwc, hlist] at hT'
  simp only [List.flatMap_append, List.flatMap_cons, List.flatMap_nil,
    List.append_nil] at hT'
  have hT := allTags_decomp b I.fin
  refine Inv.step I (entryTags (addStateEntry b name pa lo g en ex)) ?_ htN ?_ ?_ ?_ ?_ hfin'
  · intro t
    rw [hT', hT]
    simp only [List.count_append]
    omega
  · intro t ht
    exact (htB t ht).1
  · intro t ht
    have := (htB t ht).2
    rw [hctr]
    omega
  · rw [hctr]
    omega
  · intro r hr
    rw [mem_allRefs _ hfin', hgdv, hgds, hwc, hlist] at hr
    simp only [List.flatMap_append, List.flatMap_cons, List.flatMap_nil,
      List.append_nil, List.mem_append] at hr
    rcases hr with h | (h | h) | h
    · exact Or.inl ((mem_allRefs b I.fin r).mpr (Or.inl h))
    · exact Or.inl ((mem_allRefs b I.fin r).mpr (Or.inr (Or.inl h)))
    · exact Or.inr (Or.inr (hrefs0 r h))
    · exact Or.inl ((mem_allRefs b I.fin r).mpr (Or.inr (Or.inr h)))

/-- connect_states preserves the allocation invariant: no branch
allocates a tag, and the only new reference is the shared blend tag. -/
lemma inv_connect (b : BehaviorFile) (s1 s2 ev : String) (I : Inv b) :
    Inv (b.connect_states s1 s2 ev).1 := by
  by_cases hne : s1 = s2
  · subst hne
    rw [connect_states_eq_assert]
    exact I
  have core := connect_states_core b s1 s2 ev
  have hfin' : (b.connect_states s1 s2 ev).1.finals = [] := core.fin.trans I.fin
  rcases hb2 : (lookupLoop b.list_of_states s2).bound with _ | st2
  · rw [connect_states_eq_empty b s1 s2 ev hne hb2]
    exact Inv.congr I (dataObjects_congr (SameShell_goc b ev)) (SameShell_goc b ev).counter
      ((SameShell_goc b ev).fin.trans I.fin)
  · have CC := connect_states_eq_update b s1 s2 ev st2 hne hb2
    have htags : allTags (b.connect_states s1 s2 ev).1 = allTags b := by
      rw [allTags_decomp _ hfin', allTags_decomp b I.fin, core.sdTag, core.vvs,
        core.gdTag, core.blend, CC.2.2.1, CC.1,
        updateLoop_flatMap_congr entryTags
          (connectUpd (b.getOrCreateEventID ev).1 st2.info.stateIdx b.blendTag)
          (fun x => rfl)]
    refine Inv.step I [] ?_ List.nodup_nil (by simp) (by simp) ?_ ?_ hfin'
    · intro t
      rw [htags]
      simp
    · rw [CC.2.2.2.1]
    · intro r hr
      rw [mem_allRefs _ hfin', core.gdVvs, core.gdSd, CC.2.2.1, CC.1] at hr
      rcases hr with h | h | h
      · exact Or.inl ((mem_allRefs b I.fin r).mpr (Or.inl h))
      · rcases hb1 : (lookupLoop b.list_of_states s1).bound with _ | e1
        · rw [lookupLoop_bound_none] at hb1
          rw [hb1] at hb2
          simp [lookupLoop, LookupResult.bound] at hb2
        · obtain ⟨l1, l2, hl, hu⟩ := updateLoop_decomp
            (connectUpd (b.getOrCreateEventID ev).1 st2.info.stateIdx b.blendTag)
            b.list_of_states s1 e1 hb1
          rw [hu] at h
          simp only [List.flatMap_append, List.flatMap_cons, List.mem_append] at h
          rcases h with h | h | h
          · refine Or.inl ((mem_allRefs b I.fin r).mpr (Or.inr (Or.inl ?_)))
            rw [hl]
            simp only [List.flatMap_append, List.flatMap_cons, List.mem_append]
            exact Or.inl h
          · rcases entryRefs_connectUpd _ _ _ e1 r h with h2 | h2
            · refine Or.inl ((mem_allRefs b I.fin r).mpr (Or.inr (Or.inl ?_)))
              rw [hl]
              simp only [List.flatMap_append, List.flatMap_cons, List.mem_append]
              exact Or.inr (Or.inl h2)
            · subst h2
              exact Or.inr (Or.inl ((mem_allTags b I.fin _).mpr (Or.inl (by simp))))
          · refine Or.inl ((mem_allRefs b I.fin r).mpr (Or.inr (Or.inl ?_)))
            rw [hl]
            simp only [List.flatMap_append, List.flatMap_cons, List.mem_append]
            exact Or.inr (Or.inr h)
      · exact Or.inl ((mem_allRefs b I.fin r).mpr (Or.inr (Or.inr h)))

/-- add_wildcard preserves the allocation invariant: it allocates at most
the one tag of the lazily created wildcard array, and the only new
references are the blend tag and the array's own content. -/
lemma inv_wildcard (b : BehaviorFile) (s ev : String) (I : Inv b) :
    Inv (b.add_wildcard s ev).1 := by
  rcases hl : lookupLoop b.list_of_states s with e | e | _
  case lastFallthrough =>
    rw [add_wildcard_eq_notfound b s ev (isFoundIn_false_of_last hl)]
    exact I
  case empty =>
    rw [add_wildcard_eq_notfound b s ev (isFoundIn_false_of_empty hl)]
    exact I
  case found =>
  have core := add_wildcard_core b s ev
  have hfin' : (b.add_wildcard s ev).1.finals = [] := core.fin.trans I.fin
  rcases hw : b.wildcardtransitions with _ | w
  · have W := add_wildcard_eq_none b s ev e hl hw
    refine Inv.step I [b.object_counter + 1] ?_ (by simp) ?_ ?_ ?_ ?_ hfin'
    · intro t
      rw [allTags_decomp _ hfin', allTags_decomp b I.fin, core.sdTag, core.vvs,
        core.gdTag, core.blend, W.1, W.2.2.1, hw]
      simp only [wcObjs, List.map_cons, List.map_nil, List.count_append,
        List.append_nil]
    · intro t ht
      simp only [List.mem_singleton] at ht
      omega
    · intro t ht
      simp only [List.mem_singleton] at ht
      rw [W.2.2.2.1]
      omega
    · rw [W.2.2.2.1]
      omega
    · intro r hr
      rw [mem_allRefs _ hfin', core.gdVvs, core.gdSd, W.1, W.2.2.1] at hr
      rcases hr with h | h | h
      · exact Or.inl ((mem_allRefs b I.fin r).mpr (Or.inl h))
      · exact Or.inl ((mem_allRefs b I.fin r).mpr (Or.inr (Or.inl h)))
      · simp only [wcObjs, List.flatMap_cons, List.flatMap_nil, List.append_nil,
          TransitionArray.refList, optRef, List.mem_append, List.mem_singleton] at h
        subst h
        exact Or.inr (Or.inl ((mem_allTags b I.fin _).mpr (Or.inl (by simp))))
  · have W := add_wildcard_eq_some b s ev e w hl hw
    refine Inv.step I [] ?_ List.nodup_nil (by simp) (by simp) ?_ ?_ hfin'
    · intro t
      rw [allTags_decomp _ hfin', allTags_decomp b I.fin, core.sdTag, core.vvs,
        core.gdTag, core.blend, W.1, W.2.2.1, hw]
      simp only [wcObjs, List.map_cons, List.map_nil, List.count_append,
        TransitionArray.add_transition, List.count_nil]
      omega
    · rw [W.2.2.2.1]
    · intro r hr
      rw [mem_allRefs _ hfin', core.gdVvs, core.gdSd, W.1, W.2.2.1] at hr
      rcases hr with h | h | h
      · exact Or.inl ((mem_allRefs b I.fin r).mpr (Or.inl h))
      · exact Or.inl ((mem_allRefs b I.fin r).mpr (Or.inr (Or.inl h)))
      · simp only [wcObjs, List.flatMap_cons, List.flatMap_nil, List.append_nil,
          refList_add_transition, optRef, List.mem_append, List.mem_singleton] at h
        rcases h with h | h
        · refine Or.inl ((mem_allRefs b I.fin r).mpr (Or.inr (Or.inr ?_)))
          rw [hw]
          simp only [wcObjs, List.flatMap_cons, List.flatMap_nil, List.append_nil]
          exact h
        · subst h
          exact Or.inr (Or.inl ((mem_allTags b I.fin _).mpr (Or.inl (by simp))))

/-- add_clip_trigger preserves the allocation invariant: it allocates at
most the one tag of the lazily created clip trigger array, and the only
new reference is that array's tag (fresh or already emitted). -/
lemma inv_clip (b : BehaviorFile) (s ev : String) (r0 : Bool) (t0 : Rat) (I : Inv b) :
    Inv (b.add_clip_trigger s ev r0 t0).1 := by
  have core := add_clip_trigger_core b s ev r0 t0
  have hfin' : (b.add_clip_trigger s ev r0 t0).1.finals = [] := core.fin.trans I.fin
  rcases hl : lookupLoop b.list_of_states s with e | e | _
  case empty =>
    have hnil : b.list_of_states = [] := by
      rw [← lookupLoop_bound_none b.list_of_states s, hl]
      rfl
    rw [add_clip_trigger_eq_empty b s ev r0 t0 hnil]
    exact I
  all_goals
    have hb : (lookupLoop b.list_of_states s).bound = some e := by rw [hl]; rfl
    by_cases hg : e.gen.isGamebryo = true
    · rw [add_clip_trigger_eq_gamebryo b s ev r0 t0 e hb hg]
      exact I
    · rw [Bool.not_eq_true] at hg
      rcases hc : e.info.clipTriggerArr with _ | c
      · have C := add_clip_trigger_eq_none b s ev r0 t0 e hb hg hc
        obtain ⟨l1, l2, hld, hu⟩ := updateLoop_decomp
          (ctaUpd
            { tag := b.object_counter + 1, num_elements := 1,
              triggers :=
                [{ localTime := t0,
                   eventId := (b._OCnext.2.getOrCreateEventID ev).1,
                   relativeToEndOfClip := r0 }] })
          b.list_of_states s e hb
        refine Inv.step I [b.object_counter + 1] ?_ (by simp) ?_ ?_ ?_ ?_ hfin'
        · intro t
          rw [allTags_decomp _ hfin', allTags_decomp b I.fin, core.sdTag, core.vvs,
            core.gdTag, core.blend, C.2.2.1, C.1, hu, hld]
          simp only [List.flatMap_append, List.flatMap_cons, List.count_append,
            entryTags_ctaUpd_none _ e hc, List.count_cons, List.count_nil,
            List.count_singleton]
          omega
        · intro t ht
          simp only [List.mem_singleton] at ht
          omega
        · intro t ht
          simp only [List.mem_singleton] at ht
          rw [C.2.2.2.1]
          omega
        · rw [C.2.2.2.1]
          omega
        · intro r hr
          rw [mem_allRefs _ hfin', core.gdVvs, core.gdSd, C.2.2.1, C.1, hu] at hr
          rcases hr with h | h | h
          · exact Or.inl ((mem_allRefs b I.fin r).mpr (Or.inl h))
          · simp only [List.flatMap_append, List.flatMap_cons, List.mem_append] at h
            rcases h with h | h | h
            · refine Or.inl ((mem_allRefs b I.fin r).mpr (Or.inr (Or.inl ?_)))
              rw [hld]
              simp only [List.flatMap_append, List.flatMap_cons, List.mem_append]
              exact Or.inl h
            · rcases entryRefs_ctaUpd _ e r h with h2 | h2
              · refine Or.inl ((mem_allRefs b I.fin r).mpr (Or.inr (Or.inl ?_)))
                rw [hld]
                simp only [List.flatMap_append, List.flatMap_cons, List.mem_append]
                exact Or.inr (Or.inl h2)
              · exact Or.inr (Or.inr (by simp [h2]))
            · refine Or.inl ((mem_allRefs b I.fin r).mpr (Or.inr (Or.inl ?_)))
              rw [hld]
              simp only [List.flatMap_append, List.flatMap_cons, List.mem_append]
              exact Or.inr (Or.inr h)
          · exact Or.inl ((mem_allRefs b I.fin r).mpr (Or.inr (Or.inr h)))
      · have C := add_clip_trigger_eq_some b s ev r0 t0 e c hb hg hc
        obtain ⟨l1, l2, hld, hu⟩ := updateLoop_decomp
          (ctaUpd (c.add_trigger t0 (b.getOrCreateEventID ev).1 r0))
          b.list_of_states s e hb
        refine Inv.step I [] ?_ List.nodup_nil (by simp) (by simp) ?_ ?_ hfin'
        · intro t
          rw [allTags_decomp _ hfin', allTags_decomp b I.fin, core.sdTag, core.vvs,
            core.gdTag, core.blend, C.2.2.1, C.1, hu, hld]
          simp only [List.flatMap_append, List.flatMap_cons, List.count_append,
            entryTags_ctaUpd_some _ e c hc (add_trigger_tag c t0 _ r0),
            List.count_nil]
          omega
        · rw [C.2.2.2.1]
        · intro r hr
          rw [mem_allRefs _ hfin', core.gdVvs, core.gdSd, C.2.2.1, C.1, hu] at hr
          rcases hr with h | h | h
          · exact Or.inl ((mem_allRefs b I.fin r).mpr (Or.inl h))
          · simp only [List.flatMap_append, List.flatMap_cons, List.mem_append] at h
            rcases h with h | h | h
            · refine Or.inl ((mem_allRefs b I.fin r).mpr (Or.inr (Or.inl ?_)))
              rw [hld]
              simp only [List.flatMap_append, List.flatMap_cons, List.mem_append]
              exact Or.inl h
            · rcases entryRefs_ctaUpd _ e r h with h2 | h2
              · refine Or.inl ((mem_allRefs b I.fin r).mpr (Or.inr (Or.inl ?_)))
                rw [hld]
                simp only [List.flatMap_append, List.flatMap_cons, List.mem_append]
                exact Or.inr (Or.inl h2)
              · rw [add_trigger_tag] at h2
                subst h2
                refine Or.inr (Or.inl ((mem_allTags b I.fin _).mpr (Or.inr (Or.inl ?_))))
                rw [hld]
                simp only [List.flatMap_append, List.flatMap_cons, List.mem_append]
                exact Or.inr (Or.inl (ctaTag_mem hc))
            · refine Or.inl ((mem_allRefs b I.fin r).mpr (Or.inr (Or.inl ?_)))
              rw [hld]
              simp only [List.flatMap_append, List.flatMap_cons, List.mem_append]
              exact Or.inr (Or.inr h)
          · exact Or.inl ((mem_allRefs b I.fin r).mpr (Or.inr (Or.inr h)))

lemma applyOp_inv (b : BehaviorFile) (op : Op) (I : Inv b) : Inv (b.applyOp op).1 := by
  cases op with
  | addState name pa lo g en ex => exact inv_add_state b name pa lo g en ex I
  | addClipTrigger s e r t => exact inv_clip b s e r t I
  | connectStates s1 s2 e => exact inv_connect b s1 s2 e I
  | addWildcard s e => exact inv_wildcard b s e I

lemma runFrom_inv : ∀ (ops : List Op) (b : BehaviorFile), Inv b → Inv (b.runFrom ops) := by
  intro ops
  induction ops with
  | nil => intro b I; exact I
  | cons op ops ih =>
    intro b I
    exact ih _ (applyOp_inv b op I)

lemma Inv_init : Inv BehaviorFile.init := by
  refine ⟨?_, ?_, ?_, ?_, ?_, ?_⟩ <;> decide

/-! ### Tag and reference bookkeeping of finalize -/

lemma allTags_finalize (b : BehaviorFile) (hfin : b.finals = []) :
    allTags b.finalize =
      allTags b ++ [b.object_counter + 1, b.object_counter + 2, 51] := by
  have F := finalize_spec b
  unfold allTags dataObjects
  rw [F.1, F.2.1, F.2.2.2.2.1, F.2.2.2.2.2.1, F.2.2.2.2.2.2.1, F.2.2.2.2.2.2.2.1,
    F.2.2.2.2.2.2.2.2.2, hfin]
  simp [FinalRecord.objs]

lemma allRefs_finalize (b : BehaviorFile) (hfin : b.finals = []) :
    allRefs b.finalize = allRefs b ++
      (optRef (b.wildcardtransitions.map (·.tag)) ++
        (smFold b.list_of_states (b.smClassList, 0, [])).2.2 ++
        [b.object_counter + 1, b.graphData.tag, b.object_counter + 2]) := by
  have F := finalize_spec b
  unfold allRefs dataObjects
  rw [F.1, F.2.1, F.2.2.2.2.1, F.2.2.2.2.2.1, F.2.2.2.2.2.2.1, F.2.2.2.2.2.2.2.1,
    F.2.2.2.2.2.2.2.2.2, hfin]
  simp [FinalRecord.objs]

lemma exists_unique_obj {l : List EmittedObj} (hnd : (l.map (·.tag)).Nodup)
    {r : Nat} (hr : r ∈ l.map (·.tag)) :
    ∃! o, o ∈ l ∧ o.tag = r := by
  rw [List.mem_map] at hr
  obtain ⟨o0, ho0, hto⟩ := hr
  refine ⟨o0, ⟨ho0, hto⟩, ?_⟩
  rintro o1 ⟨ho1, ht1⟩
  exact List.inj_on_of_nodup_map hnd ho1 ho0 (by rw [ht1, hto])

lemma mem_optRef_map {x : Option TransitionArray} {r : Nat}
    (h : r ∈ optRef (x.map (·.tag))) : ∃ w, x = some w ∧ r = w.tag := by
  rcases x with _ | w
  · simp [optRef] at h
  · simp [optRef, Option.map_some] at h
    exact ⟨w, rfl, h⟩

/-- C2.  The tag allocator of one builder instance hands out the
successor of the current counter, every tag already emitted by any
sequence of builder operations lies strictly below the next allocated
value, and the emitted tags are pairwise distinct: no tag is ever issued
twice by one instance. -/
theorem tags_strictly_increasing_never_reused (ops : List Op) :
    ((runOps ops)._OCnext).1 = (runOps ops).object_counter + 1 ∧
    (∀ t ∈ allTags (runOps ops), t < ((runOps ops)._OCnext).1) ∧
    (allTags (runOps ops)).Nodup := by
  unfold runOps
  have I := runFrom_inv ops BehaviorFile.init Inv_init
  refine ⟨rfl, ?_, I.nodup⟩
  intro t ht
  have h1 := I.ub t ht
  have h2 : ((BehaviorFile.init.runFrom ops)._OCnext).1 =
      (BehaviorFile.init.runFrom ops).object_counter + 1 := rfl
  omega

/-- C7.  In the data section produced by export after any sequence of
builder operations, all emitted object tags are pairwise distinct and
every emitted non-null cross-reference value is the tag of exactly one
emitted object. -/
theorem export_referential_integrity (ops : List Op) :
    (allTags (runOps ops).finalize).Nodup ∧
    ∀ r ∈ allRefs (runOps ops).finalize,
      ∃! o, o ∈ dataObjects (runOps ops).finalize ∧ o.tag = r := by
  unfold runOps
  have I := runFrom_inv ops BehaviorFile.init Inv_init
  have core := runFrom_core ops BehaviorFile.init
  have hsmcl : (BehaviorFile.init.runFrom ops).smClassList = [] := core.smcl
  have hT := allTags_finalize (BehaviorFile.init.runFrom ops) I.fin
  have hR := allRefs_finalize (BehaviorFile.init.runFrom ops) I.fin
  have hnodup : (allTags (BehaviorFile.init.runFrom ops).finalize).Nodup := by
    rw [hT, List.nodup_append]
    refine ⟨I.nodup, ?_, ?_⟩
    · have h3 := I.cnt
      simp [List.nodup_cons]
      omega
    · intro t htm
      have h1 := I.lb t htm
      have h2 := I.ub t htm
      have h3 := I.cnt
      intro hmem
      simp at hmem
      rcases hmem with h | h | h <;> omega
  refine ⟨hnodup, ?_⟩
  intro r hr
  have hrT : r ∈ allTags (BehaviorFile.init.runFrom ops).finalize := by
    rw [hT]
    rw [hR, List.mem_append] at hr
    rw [List.mem_append]
    rcases hr with h | h
    · exact Or.inl (I.refsub r h)
    · simp only [List.mem_append] at h
      rcases h with (h | h) | h
      · obtain ⟨w, hw, rfl⟩ := mem_optRef_map h
        refine Or.inl ((mem_allTags _ I.fin _).mpr (Or.inr (Or.inr ?_)))
        rw [hw]
        simp [wcObjs]
      · rw [hsmcl,
          (smFold_spec (BehaviorFile.init.runFrom ops).list_of_states [] 0 []).2.2] at h
        by_cases hE : (BehaviorFile.init.runFrom ops).list_of_states.isEmpty = true
        · rw [if_pos hE] at h
          simp at h
        · rw [if_neg hE] at h
          simp only [List.nil_append] at h
          rw [List.mem_map] at h
          obtain ⟨e, he, hte⟩ := h
          refine Or.inl ((mem_allTags _ I.fin _).mpr (Or.inr (Or.inl ?_)))
          rw [List.mem_flatMap]
          exact ⟨e, he, hte ▸ infoTag_mem e⟩
      · simp only [List.mem_cons, List.mem_singleton, List.not_mem_nil, or_false] at h
        rcases h with h | h | h
        · subst h
          exact Or.inr (by simp)
        · subst h
          exact Or.inl ((mem_allTags _ I.fin _).mpr (Or.inl (by simp)))
        · subst h
          exact Or.inr (by simp)
  exact exists_unique_obj hnodup hrT

end BehaviorBuilder
